import Mathlib

/-!
Verification development for the hob3l pipeline driver (src/main.c) and
SCAD surface-syntax scanner/parser (src/syn.c).

The embedding models the C sources directly:
* bytes of the input buffer are `Nat` values (0..255); the terminating NUL
  that `cp_scad_read_file` pushes is the final 0 of `buf`;
* the scanner state `parse_t` mirrors the C struct `parse_t` plus the parts
  of `cp_syn_tree_t.err` the scanner writes (message and location); in
  addition `err_writes` logs every message written to `err.msg`, in order,
  so that theorems can speak about "the first error message produced";
* all C loops are modelled with an explicit fuel argument; `none` means the
  loop did not finish within the given fuel (so genuine non-termination of
  the C loop shows up as `∀ fuel, f fuel s = none`);
* `size_t` arithmetic is `Nat` with explicit `% 2 ^ 64`.
-/

namespace Hob3l

/-! ### Token types (syn.c lines 14-23) -/

def T_EOF : Nat := 0

def T_ERROR : Nat := 257

def T_ID : Nat := 258

def T_INT : Nat := 259

def T_FLOAT : Nat := 260

def T_STRING : Nat := 261

def T_LCOM : Nat := 262

def T_BCOM : Nat := 263

/-- Scanner/parser state: C struct `parse_t` (syn.c lines 25-34) together with
the error record fields of `cp_syn_tree_t` that syn.c writes (`err.msg`,
`err.loc`).  `buf` is the working copy `file->content` including the pushed
NUL; `lex_pos` is the index that the pointer `lex_string` stands at;
`lex_end` is the index that `lex_end` points to (the position of the pushed
NUL).  `err_writes` is instrumentation: the list of strings appended to
`err.msg`, in source order. -/
structure parse_t where
  buf : List Nat
  lex_pos : Nat
  lex_cur : Nat
  lex_end : Nat
  tok_type : Nat
  tok_string : Nat
  err_msg : String
  err_writes : List String
  err_loc : Option Nat
  deriving Repr, DecidableEq

/-- C `have_err_msg` (syn.c lines 36-39): `err.msg.size > 0`. -/
def have_err_msg (p : parse_t) : Bool :=
  decide (0 < p.err_msg.length)

/-- Append a message to `err.msg` (one `cp_vchar_printf` call site), logging it. -/
def err_write (m : String) (p : parse_t) : parse_t :=
  { p with err_msg := p.err_msg ++ m, err_writes := p.err_writes ++ [m] }

/-- The guarded-writer pattern `if (!have_err_msg(p)) cp_vchar_printf(...)`. -/
def err_write_if_empty (m : String) (p : parse_t) : parse_t :=
  if have_err_msg p then p else err_write m p

/-- C `lex_next` (syn.c lines 41-52): at end of input only `lex_cur` is
cleared and `lex_string` does not move; otherwise advance and reload. -/
def lex_next (p : parse_t) : parse_t :=
  if p.lex_end ≤ p.lex_pos then { p with lex_cur := 0 }
  else { p with lex_pos := p.lex_pos + 1, lex_cur := p.buf.getD (p.lex_pos + 1) 0 }

/-- C `is_space` (syn.c lines 54-57). -/
def is_space (c : Nat) : Bool :=
  c == 32 || c == 9 || c == 13 || c == 10

/-- C `is_digit` (syn.c lines 59-62). -/
def is_digit (c : Nat) : Bool :=
  decide (48 ≤ c ∧ c ≤ 57)

/-- C `is_alpha` (syn.c lines 64-69). -/
def is_alpha (c : Nat) : Bool :=
  decide ((97 ≤ c ∧ c ≤ 122) ∨ (65 ≤ c ∧ c ≤ 90))

/-- Fueled form of the C pattern `while (cond(p)) lex_next(p);`. -/
def lex_loop (cond : parse_t → Bool) : Nat → parse_t → Option parse_t
  | 0, _ => none
  | fuel + 1, p => if cond p then lex_loop cond fuel (lex_next p) else some p

/-- The string-scanning loop of `tok_next_aux2` (syn.c lines 172-184):
`while (*lex_string != '"') { if (*lex_string == '\\') { lex_next; if
(*lex_string == '\0') return EOF-error; } lex_next; }`.  Result flag `true`
means the end-of-file-inside-string branch was taken. -/
def string_loop : Nat → parse_t → Option (Bool × parse_t)
  | 0, _ => none
  | fuel + 1, p =>
    if p.buf.getD p.lex_pos 0 == 34 then some (false, p)
    else if p.buf.getD p.lex_pos 0 == 92 then
      let q := lex_next p
      if q.buf.getD q.lex_pos 0 == 0 then some (true, q)
      else string_loop fuel (lex_next q)
    else string_loop fuel (lex_next p)

/-- The block-comment loop of `tok_next_aux2` (syn.c lines 210-221) with its
`prev` variable.  Result flag `true` means end of file was hit inside the
comment. -/
def bcom_loop : Nat → Nat → parse_t → Option (Bool × parse_t)
  | 0, _, _ => none
  | fuel + 1, prev, p =>
    if prev == 42 && p.lex_cur == 47 then some (false, p)
    else if p.lex_cur == 0 then some (true, p)
    else bcom_loop fuel p.lex_cur (lex_next p)

/-- The exponent part of the numeric scan (syn.c lines 126-135): on `e` or
`E` the kind becomes float, an optional sign and a digit run follow. -/
def num_exp_scan (fuel : Nat) (p : parse_t) : Option parse_t :=
  if p.lex_cur == 101 || p.lex_cur == 69 then
    let q1 := lex_next { p with tok_type := T_FLOAT }
    let q2 := if q1.lex_cur == 45 || q1.lex_cur == 43 then lex_next q1 else q1
    lex_loop (fun q => is_digit q.lex_cur) fuel q2
  else some p

/-- C `tok_next_aux2` (syn.c lines 71-231).  Note the branch dispatch reads
the cached `lex_cur` while the adjacent-token checks read `*lex_string`
(that is, `buf[lex_pos]`), exactly as the C does. -/
def tok_next_aux2 (fuel : Nat) (p0 : parse_t) : Option parse_t :=
  if p0.tok_type == T_ERROR then some p0 else
  (lex_loop (fun q => is_space q.lex_cur) fuel p0).bind fun pa =>
  let p := { pa with tok_string := pa.lex_pos }
  if p.lex_cur == 43 || p.lex_cur == 45 || p.lex_cur == 46 || is_digit p.lex_cur then
    if p.buf.getD p.lex_pos 0 == 0 then
      some { err_write_if_empty "Expected no number here.\n" p with tok_type := T_ERROR }
    else
      let p1 := { p with tok_type := T_INT }
      let p2 := if p1.lex_cur == 43 then
                  let q := lex_next p1
                  { q with tok_string := q.lex_pos }
                else p1
      let p3 := if p2.lex_cur == 45 then lex_next p2 else p2
      (lex_loop (fun q => is_digit q.lex_cur) fuel p3).bind fun p4 =>
      (if p4.lex_cur == 46 then
         lex_loop (fun q => is_digit q.lex_cur) fuel (lex_next { p4 with tok_type := T_FLOAT })
       else some p4).bind fun p5 =>
      (num_exp_scan fuel p5).bind fun p6 =>
      some { p6 with buf := p6.buf.set p6.lex_pos 0 }
  else if p.lex_cur == 36 || p.lex_cur == 95 || is_alpha p.lex_cur then
    if p.buf.getD p.lex_pos 0 == 0 then
      some { err_write_if_empty "Expected no identifier here.\n" p with tok_type := T_ERROR }
    else
      let p1 := { p with tok_type := T_ID }
      let p2 := if p1.lex_cur == 36 then lex_next p1 else p1
      (lex_loop (fun q => is_alpha q.lex_cur || is_digit q.lex_cur || q.lex_cur == 95)
          fuel p2).bind fun p3 =>
      some { p3 with buf := p3.buf.set p3.lex_pos 0 }
  else if p.lex_cur == 34 then
    let p1 := lex_next { p with buf := p.buf.set p.lex_pos 0 }
    let p2 := { p1 with tok_type := T_STRING, tok_string := p1.lex_pos }
    (string_loop fuel p2).bind fun r =>
    if r.1 then
      some { err_write_if_empty "End of file inside string.\n" r.2 with tok_type := T_ERROR }
    else
      some (lex_next { r.2 with buf := r.2.buf.set r.2.lex_pos 0 })
  else if p.lex_cur == 47 && p.buf.getD (p.lex_pos + 1) 0 == 47 then
    lex_loop (fun q => q.lex_cur != 10 && q.lex_cur != 0) fuel { p with tok_type := T_LCOM }
  else if p.lex_cur == 47 && p.buf.getD (p.lex_pos + 1) 0 == 42 then
    let p1 := lex_next (lex_next { p with tok_type := T_BCOM })
    (bcom_loop fuel 0 p1).bind fun r =>
    if r.1 then
      some (lex_next { err_write_if_empty "File ends inside comment.\n" r.2 with
                         tok_type := T_ERROR })
    else some (lex_next r.2)
  else
    some (lex_next { p with tok_type := p.lex_cur % 128 })

/-- C `is_comment` (syn.c lines 233-236). -/
def is_comment (t : Nat) : Bool :=
  t == T_LCOM || t == T_BCOM

/-- C `tok_next` (syn.c lines 238-243): `do tok_next_aux2 while (is_comment)`. -/
def tok_next : Nat → parse_t → Option parse_t
  | 0, _ => none
  | fuel + 1, p =>
    (tok_next_aux2 fuel p).bind fun q =>
    if is_comment q.tok_type then tok_next fuel q else some q

/-- Scanner state right after `cp_scad_read_file` (syn.c lines 734-743): the
working buffer is the raw content plus a pushed NUL, `lex_string` is at
index 0, `lex_cur` is the first byte, `lex_end` is at the pushed NUL, and
the token and error fields are zero-initialised (`CP_ZERO` in
`cp_syn_parse`). -/
def init_parse (raw : List Nat) : parse_t :=
  { buf := raw ++ [0], lex_pos := 0, lex_cur := (raw ++ [0]).getD 0 0,
    lex_end := raw.length, tok_type := 0, tok_string := 0,
    err_msg := "", err_writes := [], err_loc := none }

/-! ### Parser (syn.c lines 245-823)

The parser functions mirror the C functions one-for-one.  Each takes the
lexer fuel `lf` (handed unchanged to every `tok_next` call) and its own
fuel (first `Nat` argument), decremented on every recursive parser call;
`none` means fuel ran out.  A result `(state, none)` is the C function
returning `false` (its partially built output is abandoned, as the caller
does in C); `(state, some v)` is `true` with output `v`. -/

/-- C `expect` (syn.c lines 245-254). -/
def expect (lf : Nat) (t : Nat) (p : parse_t) : Option (Bool × parse_t) :=
  if p.tok_type == t then (tok_next lf p).map fun q => (true, q)
  else some (false, p)

/-- The NUL-terminated C string in `buf` starting at index `i`. -/
def cstr (buf : List Nat) (i : Nat) : List Nat :=
  (buf.drop i).takeWhile (fun c => c != 0)

/-- Render scanner bytes as the string a `%s`/`%c` format writes. -/
def bytes_string (bs : List Nat) : String :=
  String.mk (bs.map Char.ofNat)

/-- C `get_tok_string` (syn.c lines 256-266). -/
def get_tok_string (p : parse_t) : Option (List Nat) :=
  if p.tok_type == T_INT || p.tok_type == T_FLOAT || p.tok_type == T_ID then
    some (cstr p.buf p.tok_string)
  else none

/-- C `get_tok_description` (syn.c lines 268-288). -/
def get_tok_description (t : Nat) : Option String :=
  if t == 32 || t == 9 || t == 13 || t == 10 then some "white space"
  else if t == T_STRING then some "string"
  else if t == T_EOF then some "end of file"
  else if t == T_LCOM then some "comment"
  else if t == T_BCOM then some "comment"
  else none

/-- The text C `err_found` (syn.c lines 290-308) appends to the current
error message: its printf calls concatenated. -/
def err_found_str (p : parse_t) : String :=
  (if 32 ≤ p.tok_type ∧ p.tok_type ≤ 127 then
     ", found '" ++ bytes_string [p.tok_type] ++ "'"
   else "") ++
  (match get_tok_string p with
   | some s => ", found '" ++ bytes_string s ++ "'"
   | none => "") ++
  (match get_tok_description p.tok_type with
   | some d => ", found " ++ d
   | none => "") ++ ".\n"

/-- C `expect_err` (syn.c lines 310-334): on mismatch and no earlier error
message it writes up to two messages (each one "Expected ..." head plus the
`err_found` text).  At every call site of syn.c at most one branch fires. -/
def expect_err (lf : Nat) (t : Nat) (p : parse_t) : Option (Bool × parse_t) :=
  (expect lf t p).bind fun r =>
  if r.1 then some r
  else if have_err_msg r.2 then some (false, r.2)
  else
    let q1 := if 32 ≤ t ∧ t ≤ 127 then
                err_write ("Expected '" ++ bytes_string [t] ++ "'" ++ err_found_str r.2) r.2
              else r.2
    let q2 := match get_tok_description t with
              | some d => err_write ("Expected " ++ d ++ err_found_str r.2) q1
              | none => q1
    some (false, q2)

/-- Modelled from the spec: libc `strtoll(s, NULL, 10)` applied to the
scanner's numeric lexemes (an optional sign followed by decimal digits;
conversion stops at the first non-digit).  `strtoll` is C library code, not
part of this repository. -/
def digits_val : List Nat → Int → Int
  | [], acc => acc
  | c :: cs, acc => if is_digit c then digits_val cs (acc * 10 + (c - 48 : Nat)) else acc

/-- Modelled from the spec: see `digits_val`. -/
def strtoll_dec (bs : List Nat) : Int :=
  match bs with
  | 45 :: rest => - digits_val rest 0
  | 43 :: rest => digits_val rest 0
  | _ => digits_val bs 0

/-- Surface value (cp_syn_value_t, the tagged variant of §3 / syn.h): the
`loc` of each constructor is the token-lexeme index `value_new` stores; an
identifier's and string's value is the lexeme index itself (a `char *` in
C); a float's value is its lexeme (the C stores the `strtod` of it; no
claim consults float values, so the embedding keeps the exact lexeme). -/
inductive syn_value where
  | id (loc : Nat) (value : Nat)
  | int (loc : Nat) (value : Int)
  | float (loc : Nat) (lexeme : List Nat)
  | str (loc : Nat) (value : Nat)
  | range (loc : Nat) (start : syn_value) (inc : Option syn_value) (end_ : syn_value)
  | array (loc : Nat) (value : List syn_value)
  deriving Repr

/-- Surface argument (cp_syn_arg_t): optional key lexeme index plus value. -/
structure syn_arg where
  key : Option Nat
  value : syn_value
  deriving Repr

/-- Surface function form (cp_syn_func_t): `functor = none` stands for the
anonymous group functor "{"; otherwise the functor lexeme index. -/
inductive syn_func where
  | mk (functor : Option Nat) (modifier : Nat) (arg : List syn_arg)
       (body : List syn_func) (loc : Nat)
  deriving Repr

/-- The four modifier bits (CP_GC_MOD_*, not defined under src/; their
numeric values are immaterial to every claim, only their OR-accumulation). -/
def MOD_EXCLAM : Nat := 1

def MOD_AST : Nat := 2

def MOD_PERCENT : Nat := 4

def MOD_HASH : Nat := 8

/-- C `value_id_new` (syn.c lines 410-415). -/
def value_id_new (loc : Nat) : syn_value :=
  syn_value.id loc loc

/-- C `parse_id` (syn.c lines 351-357): the out-string is `tok_string`
captured before the `expect_err`. -/
def parse_id (lf : Nat) (p : parse_t) : Option (Bool × parse_t × Nat) :=
  let s := p.tok_string
  (expect_err lf T_ID p).map fun r => (r.1, r.2, s)

/-- C `parse_new_int` = `value_new` + `parse_int` (syn.c lines 359-366, 425-431). -/
def parse_new_int (lf : Nat) (p : parse_t) : Option (Bool × parse_t × syn_value) :=
  let v := syn_value.int p.tok_string (strtoll_dec (cstr p.buf p.tok_string))
  (expect_err lf T_INT p).map fun r => (r.1, r.2, v)

/-- C `parse_new_float` = `value_new` + `parse_float` (syn.c lines 368-375, 433-439). -/
def parse_new_float (lf : Nat) (p : parse_t) : Option (Bool × parse_t × syn_value) :=
  let v := syn_value.float p.tok_string (cstr p.buf p.tok_string)
  (expect_err lf T_FLOAT p).map fun r => (r.1, r.2, v)

/-- C `parse_new_string` = `value_new` + `parse_string` (syn.c lines 377-384, 441-447). -/
def parse_new_string (lf : Nat) (p : parse_t) : Option (Bool × parse_t × syn_value) :=
  let v := syn_value.str p.tok_string p.tok_string
  (expect_err lf T_STRING p).map fun r => (r.1, r.2, v)

/-- C `parse_new_id` (syn.c lines 417-423). -/
def parse_new_id (lf : Nat) (p : parse_t) : Option (Bool × parse_t × syn_value) :=
  let v := value_id_new p.tok_string
  (expect_err lf T_ID p).map fun r => (r.1, r.2, v)

/-- C `looking_at_value` (syn.c lines 510-524). -/
def looking_at_value (p : parse_t) : Bool :=
  p.tok_type == T_INT || p.tok_type == T_FLOAT || p.tok_type == T_STRING ||
  p.tok_type == T_ID || p.tok_type == 91

/-- C `looking_at_arg` (syn.c lines 555-559). -/
def looking_at_arg (p : parse_t) : Bool :=
  p.tok_type == T_ID || looking_at_value p

/-- C `looking_at_modifier` (syn.c lines 608-616). -/
def looking_at_modifier (p : parse_t) : Bool :=
  p.tok_type == 42 || p.tok_type == 37 || p.tok_type == 33 || p.tok_type == 35

/-- C `looking_at_func` (syn.c lines 618-626). -/
def looking_at_func (p : parse_t) : Bool :=
  p.tok_type == T_ID || p.tok_type == 59 || p.tok_type == 123 || looking_at_modifier p

mutual

/-- C `parse_value` (syn.c lines 526-553). -/
def parse_value (lf : Nat) : Nat → parse_t → Option (parse_t × Option syn_value)
  | 0, _ => none
  | fuel + 1, p =>
    if p.tok_type == T_INT then
      (parse_new_int lf p).map fun r => (r.2.1, if r.1 then some r.2.2 else none)
    else if p.tok_type == T_FLOAT then
      (parse_new_float lf p).map fun r => (r.2.1, if r.1 then some r.2.2 else none)
    else if p.tok_type == T_STRING then
      (parse_new_string lf p).map fun r => (r.2.1, if r.1 then some r.2.2 else none)
    else if p.tok_type == T_ID then
      (parse_new_id lf p).map fun r => (r.2.1, if r.1 then some r.2.2 else none)
    else if p.tok_type == 91 then
      parse_new_range_or_array lf fuel p
    else
      some (err_write_if_empty ("Expected int, float, or identifier" ++ err_found_str p) p,
            none)

/-- C `parse_new_range_or_array` (syn.c lines 449-508): after `[` and a
first value, `:` selects the range form (a second `:` moves the parsed end
into `inc` and reads the real end), otherwise the comma loop builds an
array. -/
def parse_new_range_or_array (lf : Nat) :
    Nat → parse_t → Option (parse_t × Option syn_value)
  | 0, _ => none
  | fuel + 1, p =>
    let loc := p.tok_string
    (expect_err lf 91 p).bind fun r0 =>
    if !r0.1 then some (r0.2, none) else
    (expect lf 93 r0.2).bind fun re =>
    if re.1 then some (re.2, some (syn_value.array loc [])) else
    (parse_value lf fuel re.2).bind fun rs =>
    match rs.2 with
    | none => some (rs.1, none)
    | some start =>
      (expect lf 58 rs.1).bind fun rc =>
      if rc.1 then
        (parse_value lf fuel rc.2).bind fun r1 =>
        match r1.2 with
        | none => some (r1.1, none)
        | some v1 =>
          (expect lf 58 r1.1).bind fun rc2 =>
          if rc2.1 then
            (parse_value lf fuel rc2.2).bind fun r2 =>
            match r2.2 with
            | none => some (r2.1, none)
            | some v2 =>
              (expect_err lf 93 r2.1).map fun rb =>
              (rb.2, if rb.1 then some (syn_value.range loc start (some v1) v2) else none)
          else
            (expect_err lf 93 rc2.2).map fun rb =>
            (rb.2, if rb.1 then some (syn_value.range loc start none v1) else none)
      else
        (parse_array_tail lf fuel rc.2 [start]).bind fun ra =>
        match ra.2 with
        | none => some (ra.1, none)
        | some elems =>
          (expect_err lf 93 ra.1).map fun rb =>
          (rb.2, if rb.1 then some (syn_value.array loc elems) else none)

/-- The comma loop of `parse_new_range_or_array` (syn.c lines 496-504):
`while (expect(',') && looking_at_value) { parse_value; push }`. -/
def parse_array_tail (lf : Nat) :
    Nat → parse_t → List syn_value → Option (parse_t × Option (List syn_value))
  | 0, _, _ => none
  | fuel + 1, p, acc =>
    (expect lf 44 p).bind fun rc =>
    if rc.1 then
      if looking_at_value rc.2 then
        (parse_value lf fuel rc.2).bind fun rv =>
        match rv.2 with
        | none => some (rv.1, none)
        | some v => parse_array_tail lf fuel rv.1 (acc ++ [v])
      else some (rc.2, some acc)
    else some (rc.2, some acc)

/-- C `parse_arg` (syn.c lines 561-577): an identifier not followed by `=`
becomes a positional value-id. -/
def parse_arg (lf : Nat) : Nat → parse_t → Option (parse_t × Option syn_arg)
  | 0, _ => none
  | fuel + 1, p =>
    if p.tok_type == T_ID then
      (parse_id lf p).bind fun ri =>
      (expect lf 61 ri.2.1).bind fun re =>
      if !re.1 then some (re.2, some ⟨none, value_id_new ri.2.2⟩)
      else
        (parse_value lf fuel re.2).map fun rv =>
        (rv.1, rv.2.map fun v => ⟨some ri.2.2, v⟩)
    else
      (parse_value lf fuel p).map fun rv =>
      (rv.1, rv.2.map fun v => ⟨none, v⟩)

/-- C `parse_args` (syn.c lines 588-606). -/
def parse_args (lf : Nat) :
    Nat → parse_t → List syn_arg → Option (parse_t × Option (List syn_arg))
  | 0, _, _ => none
  | fuel + 1, p, acc =>
    if !looking_at_arg p then some (p, some acc)
    else
      (parse_arg lf fuel p).bind fun ra =>
      match ra.2 with
      | none => some (ra.1, none)
      | some a =>
        if ra.1.tok_type == 41 then some (ra.1, some (acc ++ [a]))
        else
          (expect_err lf 44 ra.1).bind fun rc =>
          if rc.1 then parse_args lf fuel rc.2 (acc ++ [a])
          else some (rc.2, none)

/-- C `parse_modifier` (syn.c lines 628-643). -/
def parse_modifier (lf : Nat) : Nat → parse_t → Nat → Option (parse_t × Nat)
  | 0, _, _ => none
  | fuel + 1, p, m =>
    if p.tok_type == 33 then
      (tok_next lf p).bind fun q => parse_modifier lf fuel q (m ||| MOD_EXCLAM)
    else if p.tok_type == 42 then
      (tok_next lf p).bind fun q => parse_modifier lf fuel q (m ||| MOD_AST)
    else if p.tok_type == 37 then
      (tok_next lf p).bind fun q => parse_modifier lf fuel q (m ||| MOD_PERCENT)
    else if p.tok_type == 35 then
      (tok_next lf p).bind fun q => parse_modifier lf fuel q (m ||| MOD_HASH)
    else some (p, m)

/-- C `parse_func` (syn.c lines 645-681). -/
def parse_func (lf : Nat) : Nat → parse_t → Option (parse_t × Option syn_func)
  | 0, _ => none
  | fuel + 1, p =>
    if p.tok_type == 123 then
      let loc := p.tok_string
      (expect lf 123 p).bind fun rb =>
      if !rb.1 then some (rb.2, none) else
      (parse_body lf fuel rb.2 []).bind fun rbody =>
      match rbody.2 with
      | none => some (rbody.1, none)
      | some body =>
        (expect_err lf 125 rbody.1).map fun rc =>
        (rc.2, if rc.1 then some (syn_func.mk none 0 [] body loc) else none)
    else
      (parse_modifier lf fuel p 0).bind fun rm =>
      (parse_id lf rm.1).bind fun ri =>
      if !ri.1 then some (ri.2.1, none) else
      (expect_err lf 40 ri.2.1).bind fun ro =>
      if !ro.1 then some (ro.2, none) else
      (parse_args lf fuel ro.2 []).bind fun ra =>
      match ra.2 with
      | none => some (ra.1, none)
      | some args =>
        (expect_err lf 41 ra.1).bind fun rc =>
        if !rc.1 then some (rc.2, none) else
        if rc.2.tok_type == 59 then
          (expect lf 59 rc.2).map fun rs =>
          (rs.2, if rs.1 then some (syn_func.mk (some ri.2.2) rm.2 args [] ri.2.2) else none)
        else if rc.2.tok_type == 123 then
          (expect lf 123 rc.2).bind fun rb =>
          if !rb.1 then some (rb.2, none) else
          (parse_body lf fuel rb.2 []).bind fun rbody =>
          match rbody.2 with
          | none => some (rbody.1, none)
          | some body =>
            (expect_err lf 125 rbody.1).map fun rd =>
            (rd.2,
             if rd.1 then some (syn_func.mk (some ri.2.2) rm.2 args body ri.2.2) else none)
        else
          (parse_push_func lf fuel rc.2).map fun rp =>
          (rp.1, rp.2.map fun fs => syn_func.mk (some ri.2.2) rm.2 args fs ri.2.2)

/-- C `parse_push_func` (syn.c lines 683-693): a lone `;` pushes nothing. -/
def parse_push_func (lf : Nat) :
    Nat → parse_t → Option (parse_t × Option (List syn_func))
  | 0, _ => none
  | fuel + 1, p =>
    (expect lf 59 p).bind fun rs =>
    if rs.1 then some (rs.2, some []) else
    (parse_func lf fuel rs.2).map fun rf =>
    (rf.1, rf.2.map fun f => [f])

/-- C `parse_body` (syn.c lines 695-707). -/
def parse_body (lf : Nat) :
    Nat → parse_t → List syn_func → Option (parse_t × Option (List syn_func))
  | 0, _, _ => none
  | fuel + 1, p, acc =>
    if !looking_at_func p then some (p, some acc)
    else
      (parse_push_func lf fuel p).bind fun rp =>
      match rp.2 with
      | none => some (rp.1, none)
      | some fs => parse_body lf fuel rp.1 (acc ++ fs)

end

/-- Result of `cp_syn_parse`: the returned bool, the final scanner/error
state, and the toplevel forms (empty on failure: the partly built vector is
abandoned by the caller in C). -/
structure syn_parse_res where
  ok : Bool
  state : parse_t
  toplevel : List syn_func
  deriving Repr

/-- C `cp_syn_parse` (syn.c lines 783-823), after the file was read: scan
the first token, parse the toplevel body, then the error epilogue.  Note
the write at syn.c line 819 ("Operator or object functor expected.") is
not guarded by `have_err_msg`. -/
def cp_syn_parse (lf pf : Nat) (raw : List Nat) : Option syn_parse_res :=
  (tok_next lf (init_parse raw)).bind fun p1 =>
  (parse_body lf pf p1 []).bind fun rb =>
  match rb.2 with
  | none =>
    let p2 := rb.1
    let p3 := if p2.err_loc == none then { p2 with err_loc := some p2.tok_string } else p2
    some ⟨false, err_write_if_empty "Parse error.\n" p3, []⟩
  | some top =>
    let p2 := rb.1
    if p2.tok_type != T_EOF then
      some ⟨false,
            err_write "Operator or object functor expected.\n"
              { p2 with err_loc := some p2.tok_string },
            top⟩
    else some ⟨true, p2, top⟩

/-! ### Driver (src/main.c) -/

/-- One past the largest `size_t` value: `size_t` arithmetic is mod `2^64`. -/
def SIZE_W : Nat := 2 ^ 64

/-- C `next_i` (main.c lines 44-55): `i = (*i_alloc)++; if (i < i_count) { *ip = i;
return true; } return false;`.  Result: (returned bool, new `*ip`, new `*i_alloc`).
The post-increment wraps at `SIZE_W` as `size_t` does. -/
def next_i (ip i_alloc i_count : Nat) : Bool × Nat × Nat :=
  let i := i_alloc
  let ia := (i_alloc + 1) % SIZE_W
  if i < i_count then (true, i, ia) else (false, ip, ia)

/-- The shared index after `k` calls of `next_i` starting from `*i_alloc = 0`. -/
def i_alloc_after : Nat → Nat
  | 0 => 0
  | k + 1 => (i_alloc_after k + 1) % SIZE_W

/-- Range of Z values (cp_range_t): minimum, step and layer count. -/
structure cp_range_t where
  min : ℚ
  step : ℚ
  cnt : Nat
  deriving Repr, DecidableEq

/-- Modelled from the spec: `cp_range_init` lives in the hob3lbase library,
which is not under src/.  Spec §4.3 gives the resulting policy
"count = max(1, floor((z_max − z_min)/z_step) + 1)" where the max(1,·)
clamp is the caller's (main.c lines 196-198), so the init itself yields
`floor((z_max − z_min)/z_step) + 1` clamped below at 0 (a `size_t`), with
`min` and `step` stored as given (§3: layer i has Z-plane `min + i·step`,
and main.c line 201 prints `range.min` as the first layer's plane).
`cp_dim_t` (double) is embedded as ℚ. -/
def cp_range_init (zmin zmax step : ℚ) : cp_range_t :=
  { min := zmin, step := step, cnt := (⌊(zmax - zmin) / step⌋ + 1).toNat }

/-- The Z-range selection of `do_file` (main.c lines 180-198): defaults from
the "normal" bounding box (the `cp_csg3_tree_bb(&bb, csg3, false)` one that
ignores subtracted geometry), overridden by the options, then
`cp_range_init` and the `cnt == 0 → 1` clamp. -/
def do_file_z (have_z_min have_z_max : Bool) (opt_z_min opt_z_max z_step : ℚ)
    (bb_min_z bb_max_z : ℚ) : cp_range_t :=
  let z_min := if have_z_min then opt_z_min else bb_min_z + z_step / 2
  let z_max := if have_z_max then opt_z_max else bb_max_z
  let r := cp_range_init z_min z_max z_step
  if r.cnt = 0 then { r with cnt := 1 } else r

/-- Modelled from the spec: the Z-plane sampled for layer `i` (§3: "Layer `i`
has Z-plane `min + i·step`"; the slicer consuming the range is not under src/). -/
def layer_z (r : cp_range_t) (i : Nat) : ℚ :=
  r.min + i * r.step

/-- C `has_suffix` (main.c lines 505-515). -/
def has_suffix (haystack needle : List Nat) : Bool :=
  if haystack.length < needle.length then false
  else haystack.drop (haystack.length - needle.length) == needle

def suf_stl : List Nat := [46, 115, 116, 108]

def suf_js : List Nat := [46, 106, 115]

def suf_scad : List Nat := [46, 115, 99, 97, 100]

def suf_csg : List Nat := [46, 99, 115, 103]

def suf_ps : List Nat := [46, 112, 115]

/-- Result of the output-file setup in `main`: either the process exits with
an error code before the input file is ever opened (main.c line 611-614 runs
before the `fopen` of the input at line 619), or execution proceeds with the
given dump flags selected. -/
inductive out_select where
  | exit_error (code : Nat)
  | selected (dump_stl dump_js dump_csg2 dump_ps : Bool)
  deriving Repr, DecidableEq

/-- The suffix dispatch of `main` (main.c lines 594-615). -/
def out_file_emitter (name : List Nat) : out_select :=
  if has_suffix name suf_stl then out_select.selected true false false false
  else if has_suffix name suf_js then out_select.selected false true false false
  else if has_suffix name suf_scad || has_suffix name suf_csg then
    out_select.selected false false true false
  else if has_suffix name suf_ps then out_select.selected false false false true
  else out_select.exit_error 1

/-- The guard around the suffix dispatch (main.c lines 585-594): it runs only
when `-o FILE` was given and no explicit dump flag is set. -/
def main_output_select (out_file : Option (List Nat)) (have_dump : Bool) :
    Option out_select :=
  match out_file with
  | none => none
  | some name => if have_dump then none else some (out_file_emitter name)

/-- Outcomes of the external collaborators `do_file` calls: the three tree
stages and the per-layer slicer/boolean/triangulation calls (all outside the
driver; §1 lists them as external interfaces). -/
structure do_file_ext where
  parse_ok : Bool
  scad_ok : Bool
  csg3_ok : Bool
  add_layer_ok : Nat → Bool
  tri_ok : Nat → Bool
  tri_diff_ok : Nat → Bool

/-- The option flags `do_file` consults. -/
structure do_file_opts where
  dump_syn : Bool
  dump_scad : Bool
  dump_csg3 : Bool
  dump_csg2 : Bool
  dump_stl : Bool
  dump_js : Bool
  dump_ps : Bool
  no_tri : Bool
  no_csg : Bool
  no_diff : Bool

/-- A layer-processing event: iteration of pass 1 (`process_stack_csg`) or
pass 2 (`process_stack_diff`) ran for layer `i`. -/
inductive layer_ev where
  | pass1 (i : Nat)
  | pass2 (i : Nat)
  deriving Repr, DecidableEq

/-- Whether pass 1 succeeds on layer `i` (main.c lines 74-87: `cp_csg2_tree_add_layer`
must succeed and, unless `--no-tri`, `cp_csg2_tri_layer` must succeed;
`cp_csg2_op_add_layer` returns void). -/
def layer1_ok (e : do_file_ext) (o : do_file_opts) (i : Nat) : Bool :=
  e.add_layer_ok i && (o.no_tri || e.tri_ok i)

/-- C `process_stack_csg` (main.c lines 63-89): the `while (next_i(...))` loop
over layers `zi, zi+1, ...` up to `zi_count`, with the trace of iterations
run.  A failing layer ends the loop with `false` after its iteration. -/
def process_stack_csg (e : do_file_ext) (o : do_file_opts) (cnt : Nat) (zi : Nat) :
    List layer_ev × Bool :=
  if zi < cnt then
    if layer1_ok e o zi then
      let r := process_stack_csg e o cnt (zi + 1)
      (layer_ev.pass1 zi :: r.1, r.2)
    else ([layer_ev.pass1 zi], false)
  else ([], true)
termination_by cnt - zi

/-- C `process_stack_diff` (main.c lines 97-116): `cp_csg2_op_diff_layer`
returns void; only `cp_csg2_tri_layer_diff` (unless `--no-tri`) can fail. -/
def process_stack_diff (e : do_file_ext) (o : do_file_opts) (cnt : Nat) (zi : Nat) :
    List layer_ev × Bool :=
  if zi < cnt then
    if o.no_tri || e.tri_diff_ok zi then
      let r := process_stack_diff e o cnt (zi + 1)
      (layer_ev.pass2 zi :: r.1, r.2)
    else ([layer_ev.pass2 zi], false)
  else ([], true)
termination_by cnt - zi

/-- The control skeleton of C `do_file` (main.c lines 118-266) from parse to
the two layer passes, with the external stages abstracted by `do_file_ext`
and the layer count (`range.cnt`, computed by `do_file_z`) a parameter.
Result: the trace of layer iterations and the returned bool. -/
def do_file_run (e : do_file_ext) (o : do_file_opts) (cnt : Nat) :
    List layer_ev × Bool :=
  if !e.parse_ok then ([], false)
  else if o.dump_syn then ([], true)
  else if !e.scad_ok then ([], false)
  else if o.dump_scad then ([], true)
  else if !e.csg3_ok then ([], false)
  else if o.dump_csg3 then ([], true)
  else
    let r1 := process_stack_csg e o cnt 0
    if !r1.2 then (r1.1, false)
    else if o.dump_js && !o.no_diff then
      let r2 := process_stack_diff e o cnt 0
      (r1.1 ++ r2.1, r2.2)
    else (r1.1, true)

/-- Concrete external outcomes (everything succeeds) for instantiating the
two-pass theorem. -/
def c6_ext : do_file_ext :=
  { parse_ok := true, scad_ok := true, csg3_ok := true,
    add_layer_ok := fun _ => true, tri_ok := fun _ => true,
    tri_diff_ok := fun _ => true }

/-- Concrete options (only the JS emitter selected) for instantiating the
two-pass theorem. -/
def c6_opts : do_file_opts :=
  { dump_syn := false, dump_scad := false, dump_csg3 := false, dump_csg2 := false,
    dump_stl := false, dump_js := true, dump_ps := false,
    no_tri := false, no_csg := false, no_diff := false }

/-! ### Source-file registry and location lookup (syn.c lines 709-776, 846-888)

Pointers into file buffers are modelled as integers in a flat address
space: each registered file's working buffer `content.data` starts at an
arbitrary base address, and `content_orig.data` at its own base.  A line
"pointer" is then `base + offset`. -/

/-- One registered file: base address of the working buffer, base address of
the untouched original copy, raw bytes as read (`z` bytes; the buffer itself
additionally holds the pushed NUL, so `content.size = z + 1`). -/
structure syn_file where
  base : Int
  orig_base : Int
  raw : List Nat
  deriving Repr, DecidableEq

/-- Offsets one past each newline of `raw`, scanning from byte index `i`
(the loop of syn.c lines 747-751). -/
def nl_offs : List Nat → Nat → List Nat
  | [], _ => []
  | c :: cs, i => if c = 10 then (i + 1) :: nl_offs cs (i + 1) else nl_offs cs (i + 1)

/-- The line-start offsets that `cp_scad_read_file` pushes (syn.c lines
746-754): offset 0, one past each newline, and — unless already present —
the end offset `z`. -/
def line_offs (raw : List Nat) : List Nat :=
  let l := 0 :: nl_offs raw 0
  if l.getLastD 0 = raw.length then l else l ++ [raw.length]

/-- The line table of a file as addresses (C stores `char *` line starts). -/
def syn_file.lines (f : syn_file) : List Int :=
  (line_offs f.raw).map (fun (o : Nat) => f.base + (o : Int))

/-- C `cmp_line` (syn.c lines 759-776) applied to the line entry at index
`j`: `none` models the `assert(&elem[1] < _end)` firing (the comparison
would read past the array). -/
def cmp_line (key : Int) (lines : List Int) (j : Nat) : Option Int :=
  if key < lines.getD j 0 then some (-1)
  else if key = lines.getD j 0 then some 0
  else if j + 1 < lines.length then
    if key > lines.getD (j + 1) 0 then some 1 else some 0
  else none

/-- Modelled from the spec: `cp_v_bsearch` lives in the base library, not
under src/; spec §9 says line lookup is "a binary search over the line-start
sequence", so this is the standard C `bsearch` halving loop over
`[lo, hi)` with the three-way comparator, returning the index at which the
comparator answers 0, or no index.  The outer `none` propagates a comparator
assertion failure. -/
def cp_v_bsearch_aux (key : Int) (lines : List Int) (lo hi : Nat) :
    Option (Option Nat) :=
  if _h : lo < hi then
    let mid := (lo + hi) / 2
    match cmp_line key lines mid with
    | none => none
    | some c =>
      if c < 0 then cp_v_bsearch_aux key lines lo mid
      else if 0 < c then cp_v_bsearch_aux key lines (mid + 1) hi
      else some (some mid)
  else some none
termination_by hi - lo
decreasing_by
  all_goals omega

/-- Modelled from the spec: see `cp_v_bsearch_aux`. -/
def cp_v_bsearch (key : Int) (lines : List Int) : Option (Option Nat) :=
  cp_v_bsearch_aux key lines 0 lines.length

/-- The location record `cp_syn_get_loc` fills (file index, zero-based line
index, and the line-range pointers for the working and original copies). -/
structure syn_loc where
  file_idx : Nat
  line : Nat
  copy : Int
  copy_end : Int
  orig : Int
  orig_end : Int
  deriving Repr, DecidableEq

/-- Outcome of `cp_syn_get_loc`: found a location, returned false, or an
internal `assert` fired. -/
inductive get_loc_res where
  | found (loc : syn_loc)
  | not_found
  | crash
  deriving Repr, DecidableEq

/-- C `cp_syn_get_loc` (syn.c lines 846-888): scan the registered files in
order; on the first whose buffer range `[data, data + content.size)`
contains the pointer, binary-search the line table (`crash` models the
asserts at lines 868-869 firing), then compute the line ranges. -/
def cp_syn_get_loc_aux (files : List syn_file) (idx : Nat) (token : Int) :
    get_loc_res :=
  match files with
  | [] => get_loc_res.not_found
  | f :: rest =>
    if f.base ≤ token ∧ token < f.base + ((f.raw.length : Int) + 1) then
      match cp_v_bsearch token f.lines with
      | none => get_loc_res.crash
      | some none => get_loc_res.crash
      | some (some j) =>
        if j < f.lines.length then
          let copy := f.lines.getD j 0
          let copy_end := if j + 1 < f.lines.length then f.lines.getD (j + 1) 0 else copy
          get_loc_res.found
            { file_idx := idx, line := j, copy := copy, copy_end := copy_end,
              orig := f.orig_base + (copy - f.base),
              orig_end := f.orig_base + (copy - f.base) + (copy_end - copy) }
        else get_loc_res.crash
    else cp_syn_get_loc_aux rest (idx + 1) token

/-- See `cp_syn_get_loc_aux`. -/
def cp_syn_get_loc (files : List syn_file) (token : Int) : get_loc_res :=
  cp_syn_get_loc_aux files 0 token

/-- The file registry built from (base, orig base, raw content) triples. -/
def mk_files (ts : List (Int × Int × List Nat)) : List syn_file :=
  ts.map (fun t => { base := t.1, orig_base := t.2.1, raw := t.2.2 })

/-- The scanner state reached on input consisting of a single double quote,
right before the string-scanning loop: the quote has been NUL-overwritten,
the cursor sits at the pushed NUL with `lex_cur = 0`.  `string_loop` maps
this state to itself in one step. -/
def c2_stuck : parse_t :=
  { buf := [0, 0], lex_pos := 1, lex_cur := 0, lex_end := 1,
    tok_type := T_STRING, tok_string := 1,
    err_msg := "", err_writes := [], err_loc := none }

/-- Concrete scanner state with a sticky error token, for instantiating the
sticky-error theorem. -/
def c9_state : parse_t :=
  { buf := [48, 0], lex_pos := 0, lex_cur := 48, lex_end := 1,
    tok_type := T_ERROR, tok_string := 0,
    err_msg := "Expected no number here.\n",
    err_writes := ["Expected no number here.\n"], err_loc := none }

/-- Error-field evolution of one scanner or parser step: either the error
record is untouched, or (the guarded-writer discipline) one message was
appended to the empty record.  `err_step p q` is what every function of
syn.c except the epilogue of `cp_syn_parse` guarantees from state `p` to
state `q`. -/
def err_step (p q : parse_t) : Prop :=
  (q.err_msg = p.err_msg ∧ q.err_writes = p.err_writes) ∨
  (p.err_msg = "" ∧ q.err_msg ≠ "" ∧ q.err_writes = p.err_writes ++ [q.err_msg])

/-- Plain concatenation of the logged error writes. -/
def str_concat (l : List String) : String :=
  l.foldl (fun a b => a ++ b) ""

/-- A comma-separated run of integer tokens as the scanner presents it to
the array loop of `parse_new_range_or_array`: from state `p`, each step is
a `,` token followed by an integer token, and `q` is the state at the first
token that is not a `,` (for a well-formed array literal, the `]`).  The
payload lists the scanner states at the integer tokens. -/
inductive comma_int_chain (lf : Nat) : parse_t → List parse_t → parse_t → Prop where
  | nil (p : parse_t) : p.tok_type ≠ 44 → comma_int_chain lf p [] p
  | cons (p p1 p2 q : parse_t) (rest : List parse_t) :
      p.tok_type = 44 → tok_next lf p = some p1 →
      p1.tok_type = T_INT → tok_next lf p1 = some p2 →
      comma_int_chain lf p2 rest q →
      comma_int_chain lf p (p1 :: rest) q

/-- The surface value an integer token's scanner state parses to
(`parse_new_int`: location and `strtoll` of the lexeme). -/
def int_value_at (s : parse_t) : syn_value :=
  syn_value.int s.tok_string (strtoll_dec (cstr s.buf s.tok_string))

/-- Scanner state at the k-th token of `raw` (lexer fuel 30), for
instantiating the token-chain theorems at concrete inputs. -/
def tok_state (raw : List Nat) : Nat → parse_t
  | 0 => (tok_next 30 (init_parse raw)).getD (init_parse raw)
  | k + 1 => (tok_next 30 (tok_state raw k)).getD (init_parse raw)

/-- A successful concrete parse (input "a();") used to instantiate the
amended first-writer theorem. -/
def c3_witness_res : syn_parse_res :=
  (cp_syn_parse 30 20 [97, 40, 41, 59]).getD ⟨false, init_parse [], []⟩

theorem c2_string_loop_stuck : ∀ fuel, string_loop fuel c2_stuck = none
  | 0 => rfl
  | n + 1 => by
    have h1 : string_loop (n + 1) c2_stuck = string_loop n c2_stuck := rfl
    rw [h1]
    exact c2_string_loop_stuck n

theorem c2_aux2_none : ∀ fuel, tok_next_aux2 fuel (init_parse [34]) = none
  | 0 => rfl
  | n + 1 => by
    have h1 : tok_next_aux2 (n + 1) (init_parse [34]) =
        Option.bind (string_loop (n + 1) c2_stuck)
          (fun r =>
            if r.1 then
              some { err_write_if_empty "End of file inside string.\n" r.2 with
                       tok_type := T_ERROR }
            else
              some (lex_next { r.2 with buf := r.2.buf.set r.2.lex_pos 0 })) := rfl
    rw [h1, c2_string_loop_stuck (n + 1)]
    rfl

theorem c2_tok_next_none : ∀ fuel, tok_next fuel (init_parse [34]) = none
  | 0 => rfl
  | n + 1 => by
    have h1 : tok_next (n + 1) (init_parse [34]) =
        Option.bind (tok_next_aux2 n (init_parse [34]))
          (fun q => if is_comment q.tok_type then tok_next n q else some q) := rfl
    rw [h1, c2_aux2_none n]
    rfl

/-- C1: the claim says that any two adjacent lexeme-bearing tokens with no
separating byte produce exactly one error token at the second, and in
particular that `1.5"hi"` errors at the opening quote.  In the code the
adjacency check is only in the number and identifier branches
(`*lex_string == '\0'`), while the string branch dispatches on the cached
`lex_cur`, so on `1.5"hi"` the scanner yields FLOAT at offset 0, then
STRING at offset 4, then EOF, with no error message and no error write —
contradicting the code's own comment (syn.c lines 93-100) which lists
`9.9"hallo"` as parsing to `9.9` plus an error token. -/
theorem c1_adjacent_string_scans_without_error :
    ((tok_next 20 (init_parse [49, 46, 53, 34, 104, 105, 34])).bind fun s1 =>
      (tok_next 20 s1).bind fun s2 =>
        (tok_next 20 s2).map fun s3 =>
          (s1.tok_type, s1.tok_string, s2.tok_type, s2.tok_string,
           s3.tok_type, s3.err_msg, s3.err_writes)) =
      some (T_FLOAT, 0, T_STRING, 4, T_EOF, "", []) := by
  rfl

/-- C2: the claim says the scanner always terminates with an error token
"End of file inside string." when end of input is hit inside a string,
whether or not the last consumed character is a backslash.  The code only
raises this error on the backslash path (syn.c lines 173-181): on input
consisting of a lone double quote the loop `while (*lex_string != '"')`
spins forever, because at end of input `lex_next` no longer advances and
`buf[lex_end]` stays NUL, so no fuel suffices (first conjunct); with a
trailing backslash the error is produced as claimed (second conjunct). -/
theorem c2_unterminated_string_loops_forever :
    (∀ fuel, tok_next fuel (init_parse [34]) = none) ∧
    ((tok_next 9 (init_parse [34, 92])).map fun q => (q.tok_type, q.err_writes)) =
      some (T_ERROR, ["End of file inside string.\n"]) :=
  ⟨c2_tok_next_none, rfl⟩

/-- C9: once the token type is `T_ERROR`, `tok_next` is a no-op: it returns
the state unchanged (its single `tok_next_aux2` call returns immediately on
its error check, syn.c lines 73-76, and `T_ERROR` is not a comment kind). -/
theorem c9_error_is_sticky (p : parse_t) (fuel : Nat) (h : p.tok_type = T_ERROR) :
    tok_next (fuel + 1) p = some p := by
  simp [tok_next, tok_next_aux2, h, is_comment, T_ERROR, T_LCOM, T_BCOM]

theorem c9_error_is_sticky_witness : tok_next 1 c9_state = some c9_state :=
  c9_error_is_sticky c9_state 0 rfl


theorem string_empty_append (s : String) : "" ++ s = s := by
  cases s
  rfl

theorem have_err_msg_false_iff (p : parse_t) : have_err_msg p = false ↔ p.err_msg = "" := by
  unfold have_err_msg
  constructor
  · intro h
    have h2 : ¬ 0 < p.err_msg.length := by simpa using h
    have h3 : p.err_msg.length = 0 := by omega
    cases hp : p.err_msg with
    | mk data =>
      rw [hp] at h3
      simp [String.length] at h3
      simp [h3]
  · intro h
    simp [h]

theorem err_step_refl (p : parse_t) : err_step p p := Or.inl ⟨rfl, rfl⟩

theorem err_step_trans {p q r : parse_t} (h1 : err_step p q) (h2 : err_step q r) :
    err_step p r := by
  rcases h1 with ⟨e1, w1⟩ | ⟨e1, n1, w1⟩
  · rcases h2 with ⟨e2, w2⟩ | ⟨e2, n2, w2⟩
    · exact Or.inl ⟨e2.trans e1, w2.trans w1⟩
    · exact Or.inr ⟨e1 ▸ e2, n2, by rw [w2, w1]⟩
  · rcases h2 with ⟨e2, w2⟩ | ⟨e2, n2, w2⟩
    · exact Or.inr ⟨e1, e2 ▸ n1, by rw [w2, w1, e2]⟩
    · exact absurd e2 n1

theorem err_step_of_err_eq {p q : parse_t} (h1 : q.err_msg = p.err_msg)
    (h2 : q.err_writes = p.err_writes) : err_step p q := Or.inl ⟨h1, h2⟩

theorem err_write_if_empty_step (m : String) (hm : m ≠ "") (p : parse_t) :
    err_step p (err_write_if_empty m p) := by
  unfold err_write_if_empty
  cases h : have_err_msg p with
  | true => simp [err_step_refl]
  | false =>
    have he : p.err_msg = "" := (have_err_msg_false_iff p).mp h
    simp only [Bool.false_eq_true, if_false]
    refine Or.inr ⟨he, ?_, ?_⟩
    · simp [err_write, he, string_empty_append, hm]
    · simp [err_write, he, string_empty_append]

theorem lex_next_err (p : parse_t) :
    (lex_next p).err_msg = p.err_msg ∧ (lex_next p).err_writes = p.err_writes := by
  unfold lex_next
  split <;> simp

theorem lex_loop_err (cond : parse_t → Bool) :
    ∀ fuel p q, lex_loop cond fuel p = some q →
      q.err_msg = p.err_msg ∧ q.err_writes = p.err_writes
  | 0, p, q, h => by simp [lex_loop] at h
  | fuel + 1, p, q, h => by
    unfold lex_loop at h
    split at h
    · have ih := lex_loop_err cond fuel (lex_next p) q h
      have hl := lex_next_err p
      exact ⟨ih.1.trans hl.1, ih.2.trans hl.2⟩
    · cases h
      exact ⟨rfl, rfl⟩

theorem string_loop_err :
    ∀ fuel p b q, string_loop fuel p = some (b, q) →
      q.err_msg = p.err_msg ∧ q.err_writes = p.err_writes
  | 0, p, b, q, h => by simp [string_loop] at h
  | fuel + 1, p, b, q, h => by
    unfold string_loop at h
    dsimp only at h
    split at h
    · cases h; exact ⟨rfl, rfl⟩
    · split at h
      · split at h
        · cases h
          have h1 := lex_next_err p
          exact ⟨h1.1, h1.2⟩
        · have ih := string_loop_err fuel _ b q h
          have h1 := lex_next_err p
          have h2 := lex_next_err (lex_next p)
          exact ⟨(ih.1.trans h2.1).trans h1.1, (ih.2.trans h2.2).trans h1.2⟩
      · have ih := string_loop_err fuel _ b q h
        have h1 := lex_next_err p
        exact ⟨ih.1.trans h1.1, ih.2.trans h1.2⟩

theorem bcom_loop_err :
    ∀ fuel prev p b q, bcom_loop fuel prev p = some (b, q) →
      q.err_msg = p.err_msg ∧ q.err_writes = p.err_writes
  | 0, prev, p, b, q, h => by simp [bcom_loop] at h
  | fuel + 1, prev, p, b, q, h => by
    unfold bcom_loop at h
    split at h
    · cases h; exact ⟨rfl, rfl⟩
    · split at h
      · cases h; exact ⟨rfl, rfl⟩
      · have ih := bcom_loop_err fuel _ _ b q h
        have h1 := lex_next_err p
        exact ⟨ih.1.trans h1.1, ih.2.trans h1.2⟩

theorem num_exp_scan_err (fuel : Nat) (p q : parse_t) (h : num_exp_scan fuel p = some q) :
    q.err_msg = p.err_msg ∧ q.err_writes = p.err_writes := by
  unfold num_exp_scan at h
  split at h
  · have := lex_loop_err _ fuel _ q h
    simp only [lex_next_err] at this ⊢
    constructor
    · rw [this.1]
      split <;> simp [lex_next_err, (lex_next_err _).1]
    · rw [this.2]
      split <;> simp [lex_next_err, (lex_next_err _).2]
  · cases h; exact ⟨rfl, rfl⟩

theorem err_step_congr {p1 p2 q1 q2 : parse_t}
    (hp1 : p2.err_msg = p1.err_msg) (hp2 : p2.err_writes = p1.err_writes)
    (hq1 : q2.err_msg = q1.err_msg) (hq2 : q2.err_writes = q1.err_writes)
    (h : err_step p2 q2) : err_step p1 q1 := by
  unfold err_step at h ⊢
  rw [← hp1, ← hp2, ← hq1, ← hq2]
  exact h

theorem tok_next_aux2_err_step (fuel : Nat) (p q : parse_t)
    (h : tok_next_aux2 fuel p = some q) : err_step p q := by
  unfold tok_next_aux2 at h
  split at h
  · exact (Option.some.inj h) ▸ err_step_refl p
  · rw [Option.bind_eq_some] at h
    obtain ⟨pa, hpa, h⟩ := h
    have ea := lex_loop_err _ fuel p pa hpa
    dsimp only at h
    split at h
    · -- number branch
      split at h
      · -- adjacency error
        have hq := Option.some.inj h
        refine @err_step_congr _ { pa with tok_string := pa.lex_pos }
          _ (err_write_if_empty "Expected no number here.\n"
            { pa with tok_string := pa.lex_pos })
          (by simpa using ea.1) (by simpa using ea.2)
          (by rw [← hq]) (by rw [← hq])
          (err_write_if_empty_step _ (by decide) _)
      · -- normal numeric scan: error fields untouched
        rw [Option.bind_eq_some] at h
        obtain ⟨p4, hp4, h⟩ := h
        rw [Option.bind_eq_some] at h
        obtain ⟨p5, hp5, h⟩ := h
        rw [Option.bind_eq_some] at h
        obtain ⟨p6, hp6, h⟩ := h
        have hq := Option.some.inj h
        have e4 := lex_loop_err _ fuel _ p4 hp4
        have e5 : p5.err_msg = p4.err_msg ∧ p5.err_writes = p4.err_writes := by
          split at hp5
          · have := lex_loop_err _ fuel _ p5 hp5
            simpa [lex_next_err, (lex_next_err _).1, (lex_next_err _).2] using this
          · cases hp5; exact ⟨rfl, rfl⟩
        have e6 := num_exp_scan_err fuel _ p6 hp6
        refine err_step_of_err_eq ?_ ?_
        · rw [← hq]
          simp only []
          rw [e6.1, e5.1, e4.1]
          split <;> split <;> simp [lex_next_err, (lex_next_err _).1, ea.1]
        · rw [← hq]
          simp only []
          rw [e6.2, e5.2, e4.2]
          split <;> split <;> simp [lex_next_err, (lex_next_err _).2, ea.2]
    · -- identifier branch and the rest
      split at h
      · split at h
        · -- adjacency error (identifier)
          have hq := Option.some.inj h
          refine @err_step_congr _ { pa with tok_string := pa.lex_pos }
            _ (err_write_if_empty "Expected no identifier here.\n"
              { pa with tok_string := pa.lex_pos })
            (by simpa using ea.1) (by simpa using ea.2)
            (by rw [← hq]) (by rw [← hq])
            (err_write_if_empty_step _ (by decide) _)
        · -- normal identifier scan
          rw [Option.bind_eq_some] at h
          obtain ⟨p3, hp3, h⟩ := h
          have hq := Option.some.inj h
          have e3 := lex_loop_err _ fuel _ p3 hp3
          refine err_step_of_err_eq ?_ ?_
          · rw [← hq]
            simp only []
            rw [e3.1]
            split <;> simp [lex_next_err, (lex_next_err _).1, ea.1]
          · rw [← hq]
            simp only []
            rw [e3.2]
            split <;> simp [lex_next_err, (lex_next_err _).2, ea.2]
      · split at h
        · -- string branch
          rw [Option.bind_eq_some] at h
          obtain ⟨r, hr, h⟩ := h
          have er := string_loop_err fuel _ r.1 r.2 (by rw [hr])
          have ebase : r.2.err_msg = p.err_msg ∧ r.2.err_writes = p.err_writes := by
            constructor
            · rw [er.1]; simp [lex_next_err, (lex_next_err _).1, ea.1]
            · rw [er.2]; simp [lex_next_err, (lex_next_err _).2, ea.2]
          split at h
          · -- EOF inside string: guarded write
            have hq := Option.some.inj h
            refine @err_step_congr _ r.2
              _ (err_write_if_empty "End of file inside string.\n" r.2)
              ebase.1 ebase.2
              (by rw [← hq]) (by rw [← hq])
              (err_write_if_empty_step _ (by decide) _)
          · have hq := Option.some.inj h
            refine err_step_of_err_eq ?_ ?_
            · rw [← hq]; simp [lex_next_err, (lex_next_err _).1, ebase.1]
            · rw [← hq]; simp [lex_next_err, (lex_next_err _).2, ebase.2]
        · split at h
          · -- line comment
            have el := lex_loop_err _ fuel _ q h
            exact err_step_of_err_eq (by rw [el.1]; simpa using ea.1)
              (by rw [el.2]; simpa using ea.2)
          · split at h
            · -- block comment
              rw [Option.bind_eq_some] at h
              obtain ⟨r, hr, h⟩ := h
              have er := bcom_loop_err fuel _ _ r.1 r.2 (by rw [hr])
              have ebase : r.2.err_msg = p.err_msg ∧ r.2.err_writes = p.err_writes := by
                constructor
                · rw [er.1]; simp [lex_next_err, (lex_next_err _).1, ea.1]
                · rw [er.2]; simp [lex_next_err, (lex_next_err _).2, ea.2]
              split at h
              · -- EOF inside comment: guarded write, then lex_next
                have hq := Option.some.inj h
                refine @err_step_congr _ r.2
                  _ (err_write_if_empty "File ends inside comment.\n" r.2)
                  ebase.1 ebase.2
                  (by rw [← hq]; simp [(lex_next_err _).1])
                  (by rw [← hq]; simp [(lex_next_err _).2])
                  (err_write_if_empty_step _ (by decide) r.2)
              · have hq := Option.some.inj h
                refine err_step_of_err_eq ?_ ?_
                · rw [← hq]; simp [lex_next_err, (lex_next_err _).1, ebase.1]
                · rw [← hq]; simp [lex_next_err, (lex_next_err _).2, ebase.2]
            · -- single character token
              have hq := Option.some.inj h
              refine err_step_of_err_eq ?_ ?_
              · rw [← hq]; simp [lex_next_err, (lex_next_err _).1, ea.1]
              · rw [← hq]; simp [lex_next_err, (lex_next_err _).2, ea.2]

theorem tok_next_err_step :
    ∀ fuel p q, tok_next fuel p = some q → err_step p q
  | 0, p, q, h => by simp [tok_next] at h
  | fuel + 1, p, q, h => by
    unfold tok_next at h
    rw [Option.bind_eq_some] at h
    obtain ⟨r, hr, h⟩ := h
    have h1 := tok_next_aux2_err_step fuel p r hr
    split at h
    · exact err_step_trans h1 (tok_next_err_step fuel r q h)
    · exact (Option.some.inj h) ▸ h1

theorem str_len_zero (s : String) (h : s.length = 0) : s = "" := by
  cases s with
  | mk data =>
    simp [String.length] at h
    simp [h]

theorem str_append_ne_left (a b : String) (ha : a ≠ "") : a ++ b ≠ "" := by
  intro h
  apply ha
  apply str_len_zero
  have h2 := congrArg String.length h
  rw [String.length_append] at h2
  simp at h2
  exact h2.1

theorem err_write_step (m : String) (hm : m ≠ "") (p : parse_t) (hp : p.err_msg = "") :
    err_step p (err_write m p) := by
  refine Or.inr ⟨hp, ?_, ?_⟩
  · simp [err_write, hp, string_empty_append, hm]
  · simp [err_write, hp, string_empty_append]

theorem expect_err_step_lemma (lf t : Nat) (p : parse_t) (b : Bool) (q : parse_t)
    (h : expect lf t p = some (b, q)) : err_step p q := by
  unfold expect at h
  split at h
  · rw [Option.map_eq_some'] at h
    obtain ⟨a, ha, h2⟩ := h
    have h3 := tok_next_err_step lf p a ha
    cases h2
    exact h3
  · cases h
    exact err_step_refl p

theorem expect_err_err_step (lf t : Nat) (ht : t ≠ 32) (p : parse_t) (b : Bool) (q : parse_t)
    (h : expect_err lf t p = some (b, q)) : err_step p q := by
  unfold expect_err at h
  rw [Option.bind_eq_some] at h
  obtain ⟨r, hr, h⟩ := h
  have h1 := expect_err_step_lemma lf t p r.1 r.2 (by rw [hr])
  split at h
  · cases h; exact h1
  · split at h
    · cases h; exact h1
    · rename_i hmsg
      have he : r.2.err_msg = "" :=
        (have_err_msg_false_iff r.2).mp (by revert hmsg; cases have_err_msg r.2 <;> simp)
      refine err_step_trans h1 ?_
      dsimp only at h
      by_cases hC : 32 ≤ t ∧ t ≤ 127
      · have hd : get_tok_description t = none := by
          unfold get_tok_description
          have c1 : (t == 32 || t == 9 || t == 13 || t == 10) = false := by
            simp only [Bool.or_eq_false_iff, beq_eq_false_iff_ne, ne_eq]
            omega
          have c2 : (t == T_STRING) = false := by
            simp only [beq_eq_false_iff_ne, ne_eq, T_STRING]
            omega
          have c3 : (t == T_EOF) = false := by
            simp only [beq_eq_false_iff_ne, ne_eq, T_EOF]
            omega
          have c4 : (t == T_LCOM) = false := by
            simp only [beq_eq_false_iff_ne, ne_eq, T_LCOM]
            omega
          have c5 : (t == T_BCOM) = false := by
            simp only [beq_eq_false_iff_ne, ne_eq, T_BCOM]
            omega
          rw [c1, c2, c3, c4, c5]
          rfl
        rw [if_pos hC, hd] at h
        have h2 := Option.some.inj h
        have hq : q = err_write ("Expected '" ++ bytes_string [t] ++ "'" ++ err_found_str r.2)
            r.2 := (congrArg Prod.snd h2).symm
        rw [hq]
        exact err_write_step _
          (str_append_ne_left _ _ (str_append_ne_left _ _ (str_append_ne_left _ _ (by decide))))
          _ he
      · rw [if_neg hC] at h
        cases hd : get_tok_description t with
        | none =>
          rw [hd] at h
          have h2 := Option.some.inj h
          have hq : q = r.2 := (congrArg Prod.snd h2).symm
          rw [hq]
          exact err_step_refl _
        | some d =>
          rw [hd] at h
          have h2 := Option.some.inj h
          have hq : q = err_write ("Expected " ++ d ++ err_found_str r.2) r.2 :=
            (congrArg Prod.snd h2).symm
          rw [hq]
          exact err_write_step _
            (str_append_ne_left _ _ (str_append_ne_left _ _ (by decide))) _ he

theorem parse_id_err_step (lf : Nat) (p : parse_t) (r : Bool × parse_t × Nat)
    (h : parse_id lf p = some r) : err_step p r.2.1 := by
  unfold parse_id at h
  rw [Option.map_eq_some'] at h
  obtain ⟨a, ha, h2⟩ := h
  have h3 := expect_err_err_step lf T_ID (by decide) p a.1 a.2 (by rw [ha])
  cases h2
  exact h3

theorem parse_new_int_err_step (lf : Nat) (p : parse_t) (r : Bool × parse_t × syn_value)
    (h : parse_new_int lf p = some r) : err_step p r.2.1 := by
  unfold parse_new_int at h
  rw [Option.map_eq_some'] at h
  obtain ⟨a, ha, h2⟩ := h
  have h3 := expect_err_err_step lf T_INT (by decide) p a.1 a.2 (by rw [ha])
  cases h2
  exact h3

theorem parse_new_float_err_step (lf : Nat) (p : parse_t) (r : Bool × parse_t × syn_value)
    (h : parse_new_float lf p = some r) : err_step p r.2.1 := by
  unfold parse_new_float at h
  rw [Option.map_eq_some'] at h
  obtain ⟨a, ha, h2⟩ := h
  have h3 := expect_err_err_step lf T_FLOAT (by decide) p a.1 a.2 (by rw [ha])
  cases h2
  exact h3

theorem parse_new_string_err_step (lf : Nat) (p : parse_t) (r : Bool × parse_t × syn_value)
    (h : parse_new_string lf p = some r) : err_step p r.2.1 := by
  unfold parse_new_string at h
  rw [Option.map_eq_some'] at h
  obtain ⟨a, ha, h2⟩ := h
  have h3 := expect_err_err_step lf T_STRING (by decide) p a.1 a.2 (by rw [ha])
  cases h2
  exact h3

theorem parse_new_id_err_step (lf : Nat) (p : parse_t) (r : Bool × parse_t × syn_value)
    (h : parse_new_id lf p = some r) : err_step p r.2.1 := by
  unfold parse_new_id at h
  rw [Option.map_eq_some'] at h
  obtain ⟨a, ha, h2⟩ := h
  have h3 := expect_err_err_step lf T_ID (by decide) p a.1 a.2 (by rw [ha])
  cases h2
  exact h3

mutual

theorem parse_value_err_step :
    ∀ lf fuel p r, parse_value lf fuel p = some r → err_step p r.1
  | lf, 0, p, r, h => Option.noConfusion h
  | lf, fuel + 1, p, r, h => by
    simp only [parse_value] at h
    split at h
    · rw [Option.map_eq_some'] at h
      obtain ⟨a, ha, h2⟩ := h
      have h3 := parse_new_int_err_step lf p a ha
      rw [← h2]
      exact h3
    · split at h
      · rw [Option.map_eq_some'] at h
        obtain ⟨a, ha, h2⟩ := h
        have h3 := parse_new_float_err_step lf p a ha
        rw [← h2]
        exact h3
      · split at h
        · rw [Option.map_eq_some'] at h
          obtain ⟨a, ha, h2⟩ := h
          have h3 := parse_new_string_err_step lf p a ha
          rw [← h2]
          exact h3
        · split at h
          · rw [Option.map_eq_some'] at h
            obtain ⟨a, ha, h2⟩ := h
            have h3 := parse_new_id_err_step lf p a ha
            rw [← h2]
            exact h3
          · split at h
            · exact parse_nra_err_step lf fuel p r h
            · have h2 := Option.some.inj h
              rw [← h2]
              exact err_write_if_empty_step _ (str_append_ne_left _ _ (by decide)) p

theorem parse_nra_err_step :
    ∀ lf fuel p r, parse_new_range_or_array lf fuel p = some r → err_step p r.1
  | lf, 0, p, r, h => Option.noConfusion h
  | lf, fuel + 1, p, r, h => by
    simp only [parse_new_range_or_array] at h
    rw [Option.bind_eq_some] at h
    obtain ⟨r0, h0, h⟩ := h
    have e0 := expect_err_err_step lf 91 (by decide) p r0.1 r0.2 (by rw [h0])
    by_cases hb0 : (!r0.1) = true
    · rw [if_pos hb0] at h
      cases h; exact e0
    · rw [if_neg hb0] at h
      rw [Option.bind_eq_some] at h
      obtain ⟨re, hre, h⟩ := h
      have e1 := err_step_trans e0 (expect_err_step_lemma lf 93 r0.2 re.1 re.2 (by rw [hre]))
      by_cases hbe : re.1 = true
      · rw [if_pos hbe] at h
        cases h; exact e1
      · rw [if_neg hbe] at h
        rw [Option.bind_eq_some] at h
        obtain ⟨rs, hrs, h⟩ := h
        have e2 := err_step_trans e1 (parse_value_err_step lf fuel re.2 rs hrs)
        cases hx : rs.2 with
        | none =>
          rw [hx] at h
          cases h; exact e2
        | some start =>
          rw [hx] at h
          dsimp only at h
          rw [Option.bind_eq_some] at h
          obtain ⟨rc, hrc, h⟩ := h
          have e3 := err_step_trans e2 (expect_err_step_lemma lf 58 rs.1 rc.1 rc.2 (by rw [hrc]))
          by_cases hbc : rc.1 = true
          · rw [if_pos hbc] at h
            rw [Option.bind_eq_some] at h
            obtain ⟨r1, hr1, h⟩ := h
            have e4 := err_step_trans e3 (parse_value_err_step lf fuel rc.2 r1 hr1)
            cases hx1 : r1.2 with
            | none =>
              rw [hx1] at h
              cases h; exact e4
            | some v1 =>
              rw [hx1] at h
              dsimp only at h
              rw [Option.bind_eq_some] at h
              obtain ⟨rc2, hrc2, h⟩ := h
              have e5 := err_step_trans e4
                (expect_err_step_lemma lf 58 r1.1 rc2.1 rc2.2 (by rw [hrc2]))
              by_cases hbc2 : rc2.1 = true
              · rw [if_pos hbc2] at h
                rw [Option.bind_eq_some] at h
                obtain ⟨r2, hr2, h⟩ := h
                have e6 := err_step_trans e5 (parse_value_err_step lf fuel rc2.2 r2 hr2)
                cases hx2 : r2.2 with
                | none =>
                  rw [hx2] at h
                  cases h; exact e6
                | some v2 =>
                  rw [hx2] at h
                  dsimp only at h
                  rw [Option.map_eq_some'] at h
                  obtain ⟨rb, hrb, h2⟩ := h
                  have eb := expect_err_err_step lf 93 (by decide) r2.1 rb.1 rb.2 (by rw [hrb])
                  rw [← h2]
                  exact err_step_trans e6 eb
              · rw [if_neg hbc2] at h
                rw [Option.map_eq_some'] at h
                obtain ⟨rb, hrb, h2⟩ := h
                have eb := expect_err_err_step lf 93 (by decide) rc2.2 rb.1 rb.2 (by rw [hrb])
                rw [← h2]
                exact err_step_trans e5 eb
          · rw [if_neg hbc] at h
            rw [Option.bind_eq_some] at h
            obtain ⟨ra, hra, h⟩ := h
            have e4 := err_step_trans e3 (parse_array_tail_err_step lf fuel rc.2 [start] ra hra)
            cases hxa : ra.2 with
            | none =>
              rw [hxa] at h
              cases h; exact e4
            | some elems =>
              rw [hxa] at h
              dsimp only at h
              rw [Option.map_eq_some'] at h
              obtain ⟨rb, hrb, h2⟩ := h
              have eb := expect_err_err_step lf 93 (by decide) ra.1 rb.1 rb.2 (by rw [hrb])
              rw [← h2]
              exact err_step_trans e4 eb

theorem parse_array_tail_err_step :
    ∀ lf fuel p acc r, parse_array_tail lf fuel p acc = some r → err_step p r.1
  | lf, 0, p, acc, r, h => Option.noConfusion h
  | lf, fuel + 1, p, acc, r, h => by
    simp only [parse_array_tail] at h
    rw [Option.bind_eq_some] at h
    obtain ⟨rc, hrc, h⟩ := h
    have e0 := expect_err_step_lemma lf 44 p rc.1 rc.2 (by rw [hrc])
    split at h
    · split at h
      · rw [Option.bind_eq_some] at h
        obtain ⟨rv, hrv, h⟩ := h
        have ev := parse_value_err_step lf fuel rc.2 rv hrv
        have e1 := err_step_trans e0 ev
        split at h
        · cases h; exact e1
        · rename_i v hv
          exact err_step_trans e1 (parse_array_tail_err_step lf fuel rv.1 (acc ++ [v]) r h)
      · cases h; exact e0
    · cases h; exact e0

theorem parse_arg_err_step :
    ∀ lf fuel p r, parse_arg lf fuel p = some r → err_step p r.1
  | lf, 0, p, r, h => Option.noConfusion h
  | lf, fuel + 1, p, r, h => by
    simp only [parse_arg] at h
    split at h
    · rw [Option.bind_eq_some] at h
      obtain ⟨ri, hri, h⟩ := h
      have e0 := parse_id_err_step lf p ri hri
      rw [Option.bind_eq_some] at h
      obtain ⟨re, hre, h⟩ := h
      have ee := expect_err_step_lemma lf 61 ri.2.1 re.1 re.2 (by rw [hre])
      have e1 := err_step_trans e0 ee
      split at h
      · cases h; exact e1
      · rw [Option.map_eq_some'] at h
        obtain ⟨rv, hrv, h2⟩ := h
        have ev := parse_value_err_step lf fuel re.2 rv hrv
        rw [← h2]
        exact err_step_trans e1 ev
    · rw [Option.map_eq_some'] at h
      obtain ⟨rv, hrv, h2⟩ := h
      have ev := parse_value_err_step lf fuel p rv hrv
      rw [← h2]
      exact ev

theorem parse_args_err_step :
    ∀ lf fuel p acc r, parse_args lf fuel p acc = some r → err_step p r.1
  | lf, 0, p, acc, r, h => Option.noConfusion h
  | lf, fuel + 1, p, acc, r, h => by
    simp only [parse_args] at h
    split at h
    · cases h; exact err_step_refl p
    · rw [Option.bind_eq_some] at h
      obtain ⟨ra, hra, h⟩ := h
      have e0 := parse_arg_err_step lf fuel p ra hra
      split at h
      · cases h; exact e0
      · rename_i a ha
        split at h
        · cases h; exact e0
        · rw [Option.bind_eq_some] at h
          obtain ⟨rc, hrc, h⟩ := h
          have ec := expect_err_err_step lf 44 (by decide) ra.1 rc.1 rc.2 (by rw [hrc])
          have e1 := err_step_trans e0 ec
          split at h
          · exact err_step_trans e1 (parse_args_err_step lf fuel rc.2 (acc ++ [a]) r h)
          · cases h; exact e1

theorem parse_modifier_err_step :
    ∀ lf fuel p m r, parse_modifier lf fuel p m = some r → err_step p r.1
  | lf, 0, p, m, r, h => Option.noConfusion h
  | lf, fuel + 1, p, m, r, h => by
    simp only [parse_modifier] at h
    split at h
    · rw [Option.bind_eq_some] at h
      obtain ⟨q, hq, h⟩ := h
      exact err_step_trans (tok_next_err_step lf p q hq)
        (parse_modifier_err_step lf fuel q _ r h)
    · split at h
      · rw [Option.bind_eq_some] at h
        obtain ⟨q, hq, h⟩ := h
        exact err_step_trans (tok_next_err_step lf p q hq)
          (parse_modifier_err_step lf fuel q _ r h)
      · split at h
        · rw [Option.bind_eq_some] at h
          obtain ⟨q, hq, h⟩ := h
          exact err_step_trans (tok_next_err_step lf p q hq)
            (parse_modifier_err_step lf fuel q _ r h)
        · split at h
          · rw [Option.bind_eq_some] at h
            obtain ⟨q, hq, h⟩ := h
            exact err_step_trans (tok_next_err_step lf p q hq)
              (parse_modifier_err_step lf fuel q _ r h)
          · cases h; exact err_step_refl p

theorem parse_func_err_step :
    ∀ lf fuel p r, parse_func lf fuel p = some r → err_step p r.1
  | lf, 0, p, r, h => Option.noConfusion h
  | lf, fuel + 1, p, r, h => by
    rw [parse_func.eq_2] at h
    by_cases hbrace : (p.tok_type == 123) = true
    · rw [if_pos hbrace] at h
      dsimp only at h
      rw [Option.bind_eq_some] at h
      obtain ⟨rb, hrb, h⟩ := h
      have e0 := expect_err_step_lemma lf 123 p rb.1 rb.2 (by rw [hrb])
      by_cases hb : (!rb.1) = true
      · rw [if_pos hb] at h
        cases h; exact e0
      · rw [if_neg hb] at h
        rw [Option.bind_eq_some] at h
        obtain ⟨rbody, hrbody, h⟩ := h
        have e1 := err_step_trans e0 (parse_body_err_step lf fuel rb.2 [] rbody hrbody)
        cases hx : rbody.2 with
        | none =>
          rw [hx] at h
          cases h; exact e1
        | some body =>
          rw [hx] at h
          dsimp only at h
          rw [Option.map_eq_some'] at h
          obtain ⟨rc, hrc, h2⟩ := h
          have ec := expect_err_err_step lf 125 (by decide) rbody.1 rc.1 rc.2 (by rw [hrc])
          rw [← h2]
          exact err_step_trans e1 ec
    · rw [if_neg hbrace] at h
      rw [Option.bind_eq_some] at h
      obtain ⟨rm, hrm, h⟩ := h
      have e0 := parse_modifier_err_step lf fuel p 0 rm hrm
      rw [Option.bind_eq_some] at h
      obtain ⟨ri, hri, h⟩ := h
      have e1 := err_step_trans e0 (parse_id_err_step lf rm.1 ri hri)
      by_cases hb1 : (!ri.1) = true
      · rw [if_pos hb1] at h
        cases h; exact e1
      · rw [if_neg hb1] at h
        rw [Option.bind_eq_some] at h
        obtain ⟨ro, hro, h⟩ := h
        have e2 := err_step_trans e1
          (expect_err_err_step lf 40 (by decide) ri.2.1 ro.1 ro.2 (by rw [hro]))
        by_cases hb2 : (!ro.1) = true
        · rw [if_pos hb2] at h
          cases h; exact e2
        · rw [if_neg hb2] at h
          rw [Option.bind_eq_some] at h
          obtain ⟨ra, hra, h⟩ := h
          have e3 := err_step_trans e2 (parse_args_err_step lf fuel ro.2 [] ra hra)
          cases hx : ra.2 with
          | none =>
            rw [hx] at h
            cases h; exact e3
          | some args =>
            rw [hx] at h
            dsimp only at h
            rw [Option.bind_eq_some] at h
            obtain ⟨rc, hrc, h⟩ := h
            have e4 := err_step_trans e3
              (expect_err_err_step lf 41 (by decide) ra.1 rc.1 rc.2 (by rw [hrc]))
            by_cases hb3 : (!rc.1) = true
            · rw [if_pos hb3] at h
              cases h; exact e4
            · rw [if_neg hb3] at h
              by_cases ht1 : (rc.2.tok_type == 59) = true
              · rw [if_pos ht1] at h
                rw [Option.map_eq_some'] at h
                obtain ⟨rs, hrs, h2⟩ := h
                have e5 := err_step_trans e4
                  (expect_err_step_lemma lf 59 rc.2 rs.1 rs.2 (by rw [hrs]))
                rw [← h2]
                exact e5
              · rw [if_neg ht1] at h
                by_cases ht2 : (rc.2.tok_type == 123) = true
                · rw [if_pos ht2] at h
                  rw [Option.bind_eq_some] at h
                  obtain ⟨rb, hrb, h⟩ := h
                  have e5 := err_step_trans e4
                    (expect_err_step_lemma lf 123 rc.2 rb.1 rb.2 (by rw [hrb]))
                  by_cases hb4 : (!rb.1) = true
                  · rw [if_pos hb4] at h
                    cases h; exact e5
                  · rw [if_neg hb4] at h
                    rw [Option.bind_eq_some] at h
                    obtain ⟨rbody, hrbody, h⟩ := h
                    have e6 := err_step_trans e5
                      (parse_body_err_step lf fuel rb.2 [] rbody hrbody)
                    cases hx2 : rbody.2 with
                    | none =>
                      rw [hx2] at h
                      cases h; exact e6
                    | some body =>
                      rw [hx2] at h
                      dsimp only at h
                      rw [Option.map_eq_some'] at h
                      obtain ⟨rd, hrd, h2⟩ := h
                      have e7 := err_step_trans e6
                        (expect_err_err_step lf 125 (by decide) rbody.1 rd.1 rd.2 (by rw [hrd]))
                      rw [← h2]
                      exact e7
                · rw [if_neg ht2] at h
                  rw [Option.map_eq_some'] at h
                  obtain ⟨rp, hrp, h2⟩ := h
                  have e5 := err_step_trans e4 (parse_push_func_err_step lf fuel rc.2 rp hrp)
                  rw [← h2]
                  exact e5

theorem parse_push_func_err_step :
    ∀ lf fuel p r, parse_push_func lf fuel p = some r → err_step p r.1
  | lf, 0, p, r, h => Option.noConfusion h
  | lf, fuel + 1, p, r, h => by
    simp only [parse_push_func] at h
    rw [Option.bind_eq_some] at h
    obtain ⟨rs, hrs, h⟩ := h
    have e0 := expect_err_step_lemma lf 59 p rs.1 rs.2 (by rw [hrs])
    split at h
    · cases h; exact e0
    · rw [Option.map_eq_some'] at h
      obtain ⟨rf, hrf, h2⟩ := h
      have e1 := err_step_trans e0 (parse_func_err_step lf fuel rs.2 rf hrf)
      rw [← h2]
      exact e1

theorem parse_body_err_step :
    ∀ lf fuel p acc r, parse_body lf fuel p acc = some r → err_step p r.1
  | lf, 0, p, acc, r, h => Option.noConfusion h
  | lf, fuel + 1, p, acc, r, h => by
    simp only [parse_body] at h
    split at h
    · cases h; exact err_step_refl p
    · rw [Option.bind_eq_some] at h
      obtain ⟨rp, hrp, h⟩ := h
      have e0 := parse_push_func_err_step lf fuel p rp hrp
      split at h
      · cases h; exact e0
      · rename_i fs hfs
        exact err_step_trans e0 (parse_body_err_step lf fuel rp.1 (acc ++ fs) r h)

end

theorem str_concat_nil : str_concat [] = "" := rfl

theorem str_concat_one (m : String) : str_concat [m] = m := string_empty_append m

theorem str_concat_two (a b : String) : str_concat [a, b] = a ++ b := by
  show ("" ++ a) ++ b = a ++ b
  rw [string_empty_append]

theorem err_from_empty {p q : parse_t} (h : err_step p q) (hm : p.err_msg = "")
    (hw : p.err_writes = []) :
    (q.err_writes = [] ∧ q.err_msg = "") ∨ (q.err_writes = [q.err_msg] ∧ q.err_msg ≠ "") := by
  rcases h with ⟨e, w⟩ | ⟨e, n, w⟩
  · exact Or.inl ⟨w.trans hw, e.trans hm⟩
  · refine Or.inr ⟨?_, n⟩
    rw [w, hw]
    rfl

/-- C3 (amended): in every run of `cp_syn_parse`, the final error message is
the concatenation of the logged writes, at most two messages are ever
written, any write after the first is the unguarded end-of-parse
"Operator or object functor expected." write of syn.c line 819, and a
failing run has at least one write.  In particular the first error message
produced is always a prefix of the final message, but — against the claim —
need not equal it. -/
theorem c3_first_writer_amended (lf pf : Nat) (raw : List Nat) (res : syn_parse_res)
    (h : cp_syn_parse lf pf raw = some res) :
    res.state.err_msg = str_concat res.state.err_writes ∧
    res.state.err_writes.length ≤ 2 ∧
    (∀ w ∈ res.state.err_writes.drop 1, w = "Operator or object functor expected.\n") ∧
    (res.ok = false → res.state.err_writes ≠ []) := by
  unfold cp_syn_parse at h
  rw [Option.bind_eq_some] at h
  obtain ⟨p1, hp1, h⟩ := h
  rw [Option.bind_eq_some] at h
  obtain ⟨rb, hrb, h⟩ := h
  have e1 := err_step_trans
    (tok_next_err_step lf (init_parse raw) p1 hp1)
    (parse_body_err_step lf pf p1 [] rb hrb)
  have base := err_from_empty e1 (by simp [init_parse]) (by simp [init_parse])
  cases hx : rb.2 with
  | none =>
    rw [hx] at h
    dsimp only at h
    have hq := (Option.some.inj h).symm
    rw [hq]
    dsimp only
    set p3 := if rb.1.err_loc == none then { rb.1 with err_loc := some rb.1.tok_string }
              else rb.1 with hp3
    have f3 : p3.err_msg = rb.1.err_msg ∧ p3.err_writes = rb.1.err_writes := by
      rw [hp3]; split <;> simp
    unfold err_write_if_empty
    by_cases hh : have_err_msg p3 = true
    · rw [if_pos hh]
      have hne : p3.err_msg ≠ "" := by
        intro hc
        rw [(have_err_msg_false_iff p3).mpr hc] at hh
        exact Bool.noConfusion hh
      rcases base with ⟨bw, bm⟩ | ⟨bw, bm⟩
      · exact absurd (f3.1.trans bm) hne
      · refine ⟨?_, ?_, ?_, ?_⟩
        · rw [f3.1, f3.2, bw, str_concat_one]
        · rw [f3.2, bw]; simp
        · rw [f3.2, bw]; simp
        · intro _
          rw [f3.2, bw]
          simp
    · rw [if_neg (by simpa using hh)]
      have hm3 : p3.err_msg = "" := (have_err_msg_false_iff p3).mp (by
        revert hh; cases have_err_msg p3 <;> simp)
      have hw3 : p3.err_writes = [] := by
        rcases base with ⟨bw, bm⟩ | ⟨bw, bm⟩
        · rw [f3.2, bw]
        · exact absurd (f3.1.symm.trans hm3) bm
      refine ⟨?_, ?_, ?_, ?_⟩
      · simp [err_write, hm3, hw3, str_concat_one, string_empty_append]
      · simp [err_write, hw3]
      · simp [err_write, hw3]
      · intro _
        simp [err_write, hw3]
  | some top =>
    rw [hx] at h
    dsimp only at h
    by_cases ht : (rb.1.tok_type != T_EOF) = true
    · rw [if_pos ht] at h
      have hq := (Option.some.inj h).symm
      rw [hq]
      dsimp only
      rcases base with ⟨bw, bm⟩ | ⟨bw, bm⟩
      · refine ⟨?_, ?_, ?_, ?_⟩
        · simp [err_write, bw, bm, str_concat_one, string_empty_append]
        · simp [err_write, bw]
        · simp [err_write, bw]
        · intro _
          simp [err_write, bw]
      · refine ⟨?_, ?_, ?_, ?_⟩
        · simp [err_write, bw, str_concat_two]
        · simp [err_write, bw]
        · simp [err_write, bw]
        · intro _
          simp [err_write, bw]
    · rw [if_neg (by simpa using ht)] at h
      have hq := (Option.some.inj h).symm
      rw [hq]
      dsimp only
      rcases base with ⟨bw, bm⟩ | ⟨bw, bm⟩
      · refine ⟨?_, ?_, ?_, ?_⟩
        · rw [bw, bm, str_concat_nil]
        · rw [bw]; simp
        · rw [bw]; simp
        · intro hc
          exact Bool.noConfusion hc
      · refine ⟨?_, ?_, ?_, ?_⟩
        · rw [bw, str_concat_one]
        · rw [bw]; simp
        · rw [bw]; simp
        · intro hc
          exact Bool.noConfusion hc

theorem c3_first_writer_amended_witness :
    c3_witness_res.state.err_msg = str_concat c3_witness_res.state.err_writes ∧
    c3_witness_res.state.err_writes.length ≤ 2 ∧
    (∀ w ∈ c3_witness_res.state.err_writes.drop 1,
      w = "Operator or object functor expected.\n") ∧
    (c3_witness_res.ok = false → c3_witness_res.state.err_writes ≠ []) :=
  c3_first_writer_amended 30 20 [97, 40, 41, 59] c3_witness_res rfl

/-- C3 counterexample: on input `/*` the run fails with two writes — the
scanner's "File ends inside comment." and then the unguarded end-of-parse
append — so the final error message does not equal the first error message
produced in source order. -/
theorem c3_first_writer_counterexample :
    ((cp_syn_parse 30 20 [47, 42]).map fun r =>
      (r.ok, r.state.err_writes, r.state.err_msg)) =
      some (false,
        ["File ends inside comment.\n", "Operator or object functor expected.\n"],
        "File ends inside comment.\nOperator or object functor expected.\n") ∧
    "File ends inside comment.\nOperator or object functor expected.\n" ≠
      "File ends inside comment.\n" :=
  ⟨rfl, by decide⟩

theorem c4_range2_aux (lf pf : Nat) (p0 p1 p2 p3 p4 p5 : parse_t)
    (t0 : p0.tok_type = 91) (n0 : tok_next lf p0 = some p1)
    (t1 : p1.tok_type = T_INT) (n1 : tok_next lf p1 = some p2)
    (t2 : p2.tok_type = 58) (n2 : tok_next lf p2 = some p3)
    (t3 : p3.tok_type = T_INT) (n3 : tok_next lf p3 = some p4)
    (t4 : p4.tok_type = 93) (n4 : tok_next lf p4 = some p5) :
    parse_new_range_or_array lf (pf + 1 + 1) p0 =
      some (p5, some (syn_value.range p0.tok_string (int_value_at p1) none
        (int_value_at p3))) := by
  simp [parse_new_range_or_array, parse_value, parse_new_int, expect_err, expect,
        int_value_at, t0, n0, t1, n1, t2, n2, t3, n3, t4, n4,
        T_INT, T_FLOAT, T_STRING, T_ID, T_ERROR]

theorem c4_range3_aux (lf pf : Nat) (p0 p1 p2 p3 p4 p5 p6 p7 : parse_t)
    (t0 : p0.tok_type = 91) (n0 : tok_next lf p0 = some p1)
    (t1 : p1.tok_type = T_INT) (n1 : tok_next lf p1 = some p2)
    (t2 : p2.tok_type = 58) (n2 : tok_next lf p2 = some p3)
    (t3 : p3.tok_type = T_INT) (n3 : tok_next lf p3 = some p4)
    (t4 : p4.tok_type = 58) (n4 : tok_next lf p4 = some p5)
    (t5 : p5.tok_type = T_INT) (n5 : tok_next lf p5 = some p6)
    (t6 : p6.tok_type = 93) (n6 : tok_next lf p6 = some p7) :
    parse_new_range_or_array lf (pf + 1 + 1) p0 =
      some (p7, some (syn_value.range p0.tok_string (int_value_at p1)
        (some (int_value_at p3)) (int_value_at p5))) := by
  simp [parse_new_range_or_array, parse_value, parse_new_int, expect_err, expect,
        int_value_at, t0, n0, t1, n1, t2, n2, t3, n3, t4, n4, t5, n5, t6, n6,
        T_INT, T_FLOAT, T_STRING, T_ID, T_ERROR]

theorem parse_array_tail_of_chain (lf : Nat) {p q : parse_t} {sts : List parse_t}
    (hc : comma_int_chain lf p sts q) :
    ∀ fuel acc, sts.length + 1 ≤ fuel →
      parse_array_tail lf fuel p acc = some (q, some (acc ++ sts.map int_value_at)) := by
  induction hc with
  | nil p hp =>
    intro fuel acc hf
    cases fuel with
    | zero => omega
    | succ g => simp [parse_array_tail, expect, hp]
  | cons p p1 p2 q rest hp hn1 ht1 hn2 hrest ih =>
    intro fuel acc hf
    cases fuel with
    | zero => omega
    | succ g =>
      cases g with
      | zero => simp at hf
      | succ k =>
        have hg : rest.length + 1 ≤ k + 1 := by simp at hf; omega
        have ihx := ih (k + 1) (acc ++ [int_value_at p1]) hg
        simp [parse_array_tail, parse_value, parse_new_int, expect_err, expect,
              looking_at_value, int_value_at, hp, hn1, ht1, hn2,
              T_INT, T_FLOAT, T_STRING, T_ID] at ihx ⊢
        rw [ihx]

theorem c4_array_aux (lf F : Nat) (p0 p1 p2 q qf : parse_t) (sts : List parse_t)
    (t0 : p0.tok_type = 91) (n0 : tok_next lf p0 = some p1)
    (t1 : p1.tok_type = T_INT) (n1 : tok_next lf p1 = some p2)
    (hc : comma_int_chain lf p2 sts q)
    (tq : q.tok_type = 93) (nq : tok_next lf q = some qf)
    (hF : sts.length + 1 ≤ F) :
    parse_new_range_or_array lf (F + 1) p0 =
      some (qf, some (syn_value.array p0.tok_string
        (int_value_at p1 :: sts.map int_value_at))) := by
  have h58p : ¬ (p2.tok_type = 58) := by
    cases hc with
    | nil _ h => rw [tq]; decide
    | cons _ _ _ _ _ h _ _ _ _ => rw [h]; decide
  have htail := parse_array_tail_of_chain lf hc F [int_value_at p1] hF
  cases F with
  | zero => omega
  | succ k =>
    simp [parse_new_range_or_array, parse_value, parse_new_int, expect_err, expect,
          int_value_at, t0, n0, t1, n1, h58p, tq, nq,
          T_INT, T_FLOAT, T_STRING, T_ID] at htail ⊢
    rw [htail]
    simp [expect_err, expect, tq, nq]

/-- C4: bracketed-value parsing (`parse_new_range_or_array`, syn.c 449-508).
Whenever the scanner presents `[`, an integer token and then a `:`, the
result is a range, otherwise an array: (1) for tokens `[ a : b ]` the result
is the range with start `a`, end `b`, and no increment; (2) for tokens
`[ a : b : c ]` the middle value `b` becomes the increment and the last
value `c` the end; (3) for tokens `[ a , b , ... ]` the result is an array
whose element list has exactly one value per integer token.  Every token of
the surrounding chain is stated as a hypothesis on the scanner state, so the
theorems hold for arbitrary integer lexemes and arbitrarily many array
elements. -/
theorem c4_range_vs_array :
    (∀ lf pf p0 p1 p2 p3 p4 p5, p0.tok_type = 91 → tok_next lf p0 = some p1 →
      p1.tok_type = T_INT → tok_next lf p1 = some p2 →
      p2.tok_type = 58 → tok_next lf p2 = some p3 →
      p3.tok_type = T_INT → tok_next lf p3 = some p4 →
      p4.tok_type = 93 → tok_next lf p4 = some p5 →
      parse_new_range_or_array lf (pf + 1 + 1) p0 =
        some (p5, some (syn_value.range p0.tok_string (int_value_at p1) none
          (int_value_at p3)))) ∧
    (∀ lf pf p0 p1 p2 p3 p4 p5 p6 p7, p0.tok_type = 91 → tok_next lf p0 = some p1 →
      p1.tok_type = T_INT → tok_next lf p1 = some p2 →
      p2.tok_type = 58 → tok_next lf p2 = some p3 →
      p3.tok_type = T_INT → tok_next lf p3 = some p4 →
      p4.tok_type = 58 → tok_next lf p4 = some p5 →
      p5.tok_type = T_INT → tok_next lf p5 = some p6 →
      p6.tok_type = 93 → tok_next lf p6 = some p7 →
      parse_new_range_or_array lf (pf + 1 + 1) p0 =
        some (p7, some (syn_value.range p0.tok_string (int_value_at p1)
          (some (int_value_at p3)) (int_value_at p5)))) ∧
    (∀ lf F p0 p1 p2 q qf sts, p0.tok_type = 91 → tok_next lf p0 = some p1 →
      p1.tok_type = T_INT → tok_next lf p1 = some p2 →
      comma_int_chain lf p2 sts q →
      q.tok_type = 93 → tok_next lf q = some qf →
      sts.length + 1 ≤ F →
      parse_new_range_or_array lf (F + 1) p0 =
        some (qf, some (syn_value.array p0.tok_string
          (int_value_at p1 :: sts.map int_value_at))) ∧
      (int_value_at p1 :: sts.map int_value_at).length = sts.length + 1) := by
  refine ⟨?_, ?_, ?_⟩
  · intro lf pf p0 p1 p2 p3 p4 p5 t0 n0 t1 n1 t2 n2 t3 n3 t4 n4
    exact c4_range2_aux lf pf p0 p1 p2 p3 p4 p5 t0 n0 t1 n1 t2 n2 t3 n3 t4 n4
  · intro lf pf p0 p1 p2 p3 p4 p5 p6 p7 t0 n0 t1 n1 t2 n2 t3 n3 t4 n4 t5 n5 t6 n6
    exact c4_range3_aux lf pf p0 p1 p2 p3 p4 p5 p6 p7 t0 n0 t1 n1 t2 n2 t3 n3 t4 n4 t5 n5 t6 n6
  · intro lf F p0 p1 p2 q qf sts t0 n0 t1 n1 hc tq nq hF
    refine ⟨c4_array_aux lf F p0 p1 p2 q qf sts t0 n0 t1 n1 hc tq nq hF, ?_⟩
    simp

theorem c4_range_vs_array_witness :
    parse_new_range_or_array 30 (0 + 1 + 1) (tok_state [91, 49, 58, 50, 93] 0) =
      some (tok_state [91, 49, 58, 50, 93] 5,
        some (syn_value.range (tok_state [91, 49, 58, 50, 93] 0).tok_string
          (int_value_at (tok_state [91, 49, 58, 50, 93] 1)) none
          (int_value_at (tok_state [91, 49, 58, 50, 93] 3)))) ∧
    parse_new_range_or_array 30 (0 + 1 + 1) (tok_state [91, 49, 58, 50, 58, 49, 48, 93] 0) =
      some (tok_state [91, 49, 58, 50, 58, 49, 48, 93] 7,
        some (syn_value.range (tok_state [91, 49, 58, 50, 58, 49, 48, 93] 0).tok_string
          (int_value_at (tok_state [91, 49, 58, 50, 58, 49, 48, 93] 1))
          (some (int_value_at (tok_state [91, 49, 58, 50, 58, 49, 48, 93] 3)))
          (int_value_at (tok_state [91, 49, 58, 50, 58, 49, 48, 93] 5)))) ∧
    (parse_new_range_or_array 30 (3 + 1) (tok_state [91, 49, 44, 50, 44, 49, 48, 93] 0) =
      some (tok_state [91, 49, 44, 50, 44, 49, 48, 93] 7,
        some (syn_value.array (tok_state [91, 49, 44, 50, 44, 49, 48, 93] 0).tok_string
          (int_value_at (tok_state [91, 49, 44, 50, 44, 49, 48, 93] 1) ::
            [tok_state [91, 49, 44, 50, 44, 49, 48, 93] 3,
             tok_state [91, 49, 44, 50, 44, 49, 48, 93] 5].map int_value_at))) ∧
      (int_value_at (tok_state [91, 49, 44, 50, 44, 49, 48, 93] 1) ::
        [tok_state [91, 49, 44, 50, 44, 49, 48, 93] 3,
         tok_state [91, 49, 44, 50, 44, 49, 48, 93] 5].map int_value_at).length =
        [tok_state [91, 49, 44, 50, 44, 49, 48, 93] 3,
         tok_state [91, 49, 44, 50, 44, 49, 48, 93] 5].length + 1) :=
  ⟨c4_range_vs_array.1 30 0 _ _ _ _ _ _ rfl rfl rfl rfl rfl rfl rfl rfl rfl rfl,
   c4_range_vs_array.2.1 30 0 _ _ _ _ _ _ _ _ rfl rfl rfl rfl rfl rfl rfl rfl rfl rfl
     rfl rfl rfl rfl,
   c4_range_vs_array.2.2 30 3 _ _ _ _ _
     [tok_state [91, 49, 44, 50, 44, 49, 48, 93] 3, tok_state [91, 49, 44, 50, 44, 49, 48, 93] 5]
     rfl rfl rfl rfl
     (comma_int_chain.cons _ _ _ _ _ rfl rfl rfl rfl
       (comma_int_chain.cons _ _ _ _ _ rfl rfl rfl rfl
         (comma_int_chain.nil _ (by decide))))
     rfl rfl (by decide)⟩

theorem i_alloc_after_mod (k : Nat) : i_alloc_after k = k % SIZE_W := by
  induction k with
  | zero => rfl
  | succ n ih => rw [i_alloc_after, ih, Nat.mod_add_mod]

/-- C8 counterexample: `size_t` wrap-around refutes the claim as stated.  At
`*i_alloc = SIZE_MAX` the call sets `*i_alloc` to 0, which is not
`SIZE_MAX + 1` (first two conjuncts: the increment is not "by exactly one").
And starting from `*i_alloc = 0` with `n = 1`, the call after `2^64` calls
returns `true` again, although the claim says every call after the first `n`
returns `false` (third conjunct). -/
theorem c8_next_i_counterexample :
    (next_i 7 (SIZE_W - 1) 5).2.2 = 0 ∧ (SIZE_W - 1) + 1 ≠ 0 ∧
    (next_i 0 (i_alloc_after SIZE_W) 1).1 = true := by
  refine ⟨?_, ?_, ?_⟩
  · unfold next_i SIZE_W
    norm_num
  · unfold SIZE_W
    norm_num
  · rw [i_alloc_after_mod, Nat.mod_self]
    rfl

/-- C8 (amended): `next_i` increments the shared index by one modulo `2^64`
(`size_t` wrap-around), returns `true` with the pre-increment value stored
into `*ip` exactly when that value was below `i_count`, and leaves `*ip`
unchanged otherwise; starting from `*i_alloc = 0`, the first `n` calls yield
`0, 1, ..., n-1` in order and the later calls return `false` until the
counter wraps after `2^64` calls. -/
theorem c8_next_i_amended :
    (∀ ip ia n, (next_i ip ia n).2.2 = (ia + 1) % SIZE_W ∧
      ((next_i ip ia n).1 = true ↔ ia < n) ∧
      ((next_i ip ia n).1 = true → (next_i ip ia n).2.1 = ia) ∧
      ((next_i ip ia n).1 = false → (next_i ip ia n).2.1 = ip)) ∧
    (∀ k, i_alloc_after k = k % SIZE_W) ∧
    (∀ ip k n, n ≤ SIZE_W → k < n →
      next_i ip (i_alloc_after k) n = (true, k, (k + 1) % SIZE_W)) ∧
    (∀ ip k n, n ≤ k → k < SIZE_W →
      next_i ip (i_alloc_after k) n = (false, ip, (k + 1) % SIZE_W)) := by
  refine ⟨?_, i_alloc_after_mod, ?_, ?_⟩
  · intro ip ia n
    unfold next_i
    dsimp only
    split <;> rename_i hlt
    · simp [hlt]
    · simp [hlt]
  · intro ip k n hn hk
    have hkw : k % SIZE_W = k := Nat.mod_eq_of_lt (by omega)
    rw [i_alloc_after_mod, hkw]
    unfold next_i
    simp [hk]
  · intro ip k n hn hk
    have hkw : k % SIZE_W = k := Nat.mod_eq_of_lt hk
    rw [i_alloc_after_mod, hkw]
    unfold next_i
    simp
    omega

theorem c8_next_i_amended_witness :
    (next_i 0 0 3).2.2 = (0 + 1) % SIZE_W ∧
    ((next_i 0 0 3).1 = true ↔ 0 < 3) ∧
    ((next_i 0 0 3).1 = true → (next_i 0 0 3).2.1 = 0) ∧
    ((next_i 0 0 3).1 = false → (next_i 0 0 3).2.1 = 0) :=
  c8_next_i_amended.1 0 0 3

/-- C5: Z-range selection (main.c lines 180-198 with the spec-modelled
`cp_range_init` and layer plane): when `--z-min` is absent the minimum
defaults to `bbox.min.z + z_step/2` of the normal-mode bounding box, when
`--z-max` is absent the maximum defaults to `bbox.max.z`; the layer count is
`max(1, floor((z_max − z_min)/z_step) + 1)`, hence at least 1; and layer `i`
samples the plane `z_min + i·z_step`. -/
theorem c5_z_range (hm hM : Bool) (om oM zs bmin bmax : ℚ) (_hstep : 0 < zs) :
    (do_file_z hm hM om oM zs bmin bmax).min = (if hm then om else bmin + zs / 2) ∧
    (do_file_z hm hM om oM zs bmin bmax).step = zs ∧
    ((do_file_z hm hM om oM zs bmin bmax).cnt : ℤ) =
      max 1 (⌊((if hM then oM else bmax) - (if hm then om else bmin + zs / 2)) / zs⌋ + 1) ∧
    1 ≤ (do_file_z hm hM om oM zs bmin bmax).cnt ∧
    (∀ i : Nat, layer_z (do_file_z hm hM om oM zs bmin bmax) i =
      (if hm then om else bmin + zs / 2) + i * zs) := by
  unfold do_file_z cp_range_init layer_z
  dsimp only
  by_cases hc : (⌊((if hM then oM else bmax) - (if hm then om else bmin + zs / 2)) / zs⌋ +
      1).toNat = 0
  · rw [if_pos hc]
    refine ⟨rfl, rfl, ?_, ?_, fun i => rfl⟩
    · dsimp only
      omega
    · dsimp only
      omega
  · rw [if_neg hc]
    refine ⟨rfl, rfl, ?_, ?_, fun i => rfl⟩
    · dsimp only
      omega
    · dsimp only
      omega

theorem c5_z_range_witness :
    (do_file_z false false 0 0 (1/2) 0 1).min = (if false then 0 else 0 + (1 : ℚ)/2 / 2) ∧
    (do_file_z false false 0 0 (1/2) 0 1).step = 1/2 ∧
    ((do_file_z false false 0 0 (1/2) 0 1).cnt : ℤ) =
      max 1 (⌊(((if false then 0 else (1 : ℚ))) - (if false then 0 else 0 + (1 : ℚ)/2 / 2)) / (1/2)⌋ + 1) ∧
    1 ≤ (do_file_z false false 0 0 (1/2) 0 1).cnt ∧
    (∀ i : Nat, layer_z (do_file_z false false 0 0 (1/2) 0 1) i =
      (if false then 0 else 0 + (1 : ℚ)/2 / 2) + i * (1/2)) :=
  c5_z_range false false 0 0 (1/2) 0 1 (by norm_num)

theorem has_suffix_elim {h n : List Nat} (hs : has_suffix h n = true) :
    n.length ≤ h.length ∧ h.drop (h.length - n.length) = n := by
  unfold has_suffix at hs
  split at hs
  · exact absurd hs (by simp)
  · rename_i hlen
    exact ⟨by omega, by simpa using hs⟩

theorem has_suffix_intro (h n : List Nat) (h1 : n.length ≤ h.length)
    (h2 : h.drop (h.length - n.length) = n) : has_suffix h n = true := by
  unfold has_suffix
  rw [if_neg (by omega)]
  simpa using h2

theorem has_suffix_of_has_suffix {h a b : List Nat} (hab : a.length ≤ b.length)
    (ha : has_suffix h a = true) (hb : has_suffix h b = true) :
    has_suffix b a = true := by
  obtain ⟨la, da⟩ := has_suffix_elim ha
  obtain ⟨lb, db⟩ := has_suffix_elim hb
  set k := b.length - a.length with hk
  have key : List.drop k b = a := by
    rw [← db, List.drop_drop]
    have harith : h.length - b.length + k = h.length - a.length := by omega
    rw [harith, da]
  exact has_suffix_intro b a (by omega) (by rw [← hk]; exact key)

/-- C7: when `-o FILE` is given and no explicit dump flag is set, the file
suffix selects the emitter — `.stl` → STL, `.js` → JS, `.scad` or `.csg` →
the SCAD echo of the 2D tree (`dump_csg2`), `.ps` → PostScript — and any
other name makes `main` print an error and exit with code 1 before the input
file is opened (`out_select.exit_error 1` marks that early exit). -/
theorem c7_suffix_selects_emitter :
    ∀ name : List Nat,
      (has_suffix name suf_stl = true →
        main_output_select (some name) false = some (out_select.selected true false false false)) ∧
      (has_suffix name suf_js = true →
        main_output_select (some name) false = some (out_select.selected false true false false)) ∧
      (has_suffix name suf_scad = true ∨ has_suffix name suf_csg = true →
        main_output_select (some name) false = some (out_select.selected false false true false)) ∧
      (has_suffix name suf_ps = true →
        main_output_select (some name) false = some (out_select.selected false false false true)) ∧
      (has_suffix name suf_stl = false → has_suffix name suf_js = false →
        has_suffix name suf_scad = false → has_suffix name suf_csg = false →
        has_suffix name suf_ps = false →
        main_output_select (some name) false = some (out_select.exit_error 1)) := by
  intro name
  refine ⟨?_, ?_, ?_, ?_, ?_⟩
  · intro hstl
    simp [main_output_select, out_file_emitter, hstl]
  · intro hjs
    have hstl : has_suffix name suf_stl = false := by
      by_contra hc
      have hc2 : has_suffix name suf_stl = true := by
        revert hc; cases has_suffix name suf_stl <;> simp
      have := @has_suffix_of_has_suffix _ suf_js suf_stl (by decide) hjs hc2
      exact absurd this (by decide)
    simp [main_output_select, out_file_emitter, hjs, hstl]
  · intro hsc
    rcases hsc with hscad | hcsg
    · have hstl : has_suffix name suf_stl = false := by
        by_contra hc
        have hc2 : has_suffix name suf_stl = true := by
          revert hc; cases has_suffix name suf_stl <;> simp
        have := @has_suffix_of_has_suffix _ suf_stl suf_scad (by decide) hc2 hscad
        exact absurd this (by decide)
      have hjs : has_suffix name suf_js = false := by
        by_contra hc
        have hc2 : has_suffix name suf_js = true := by
          revert hc; cases has_suffix name suf_js <;> simp
        have := @has_suffix_of_has_suffix _ suf_js suf_scad (by decide) hc2 hscad
        exact absurd this (by decide)
      simp [main_output_select, out_file_emitter, hscad, hstl, hjs]
    · have hstl : has_suffix name suf_stl = false := by
        by_contra hc
        have hc2 : has_suffix name suf_stl = true := by
          revert hc; cases has_suffix name suf_stl <;> simp
        have := @has_suffix_of_has_suffix _ suf_stl suf_csg (by decide) hc2 hcsg
        exact absurd this (by decide)
      have hjs : has_suffix name suf_js = false := by
        by_contra hc
        have hc2 : has_suffix name suf_js = true := by
          revert hc; cases has_suffix name suf_js <;> simp
        have := @has_suffix_of_has_suffix _ suf_js suf_csg (by decide) hc2 hcsg
        exact absurd this (by decide)
      simp [main_output_select, out_file_emitter, hcsg, hstl, hjs]
  · intro hps
    have hstl : has_suffix name suf_stl = false := by
      by_contra hc
      have hc2 : has_suffix name suf_stl = true := by
        revert hc; cases has_suffix name suf_stl <;> simp
      have := @has_suffix_of_has_suffix _ suf_ps suf_stl (by decide) hps hc2
      exact absurd this (by decide)
    have hjs : has_suffix name suf_js = false := by
      by_contra hc
      have hc2 : has_suffix name suf_js = true := by
        revert hc; cases has_suffix name suf_js <;> simp
      have := @has_suffix_of_has_suffix _ suf_ps suf_js (by decide) hps hc2
      exact absurd this (by decide)
    have hscad : has_suffix name suf_scad = false := by
      by_contra hc
      have hc2 : has_suffix name suf_scad = true := by
        revert hc; cases has_suffix name suf_scad <;> simp
      have := @has_suffix_of_has_suffix _ suf_ps suf_scad (by decide) hps hc2
      exact absurd this (by decide)
    have hcsg : has_suffix name suf_csg = false := by
      by_contra hc
      have hc2 : has_suffix name suf_csg = true := by
        revert hc; cases has_suffix name suf_csg <;> simp
      have := @has_suffix_of_has_suffix _ suf_ps suf_csg (by decide) hps hc2
      exact absurd this (by decide)
    simp [main_output_select, out_file_emitter, hps, hstl, hjs, hscad, hcsg]
  · intro h1 h2 h3 h4 h5
    simp [main_output_select, out_file_emitter, h1, h2, h3, h4, h5]

theorem c7_suffix_selects_emitter_witness :
    main_output_select (some [111, 46, 115, 116, 108]) false =
      some (out_select.selected true false false false) ∧
    main_output_select (some [111, 46, 106, 115]) false =
      some (out_select.selected false true false false) ∧
    main_output_select (some [111, 46, 115, 99, 97, 100]) false =
      some (out_select.selected false false true false) ∧
    main_output_select (some [111, 46, 99, 115, 103]) false =
      some (out_select.selected false false true false) ∧
    main_output_select (some [111, 46, 112, 115]) false =
      some (out_select.selected false false false true) ∧
    main_output_select (some [111, 46, 120, 121, 122]) false =
      some (out_select.exit_error 1) :=
  ⟨(c7_suffix_selects_emitter [111, 46, 115, 116, 108]).1 (by decide),
   (c7_suffix_selects_emitter [111, 46, 106, 115]).2.1 (by decide),
   (c7_suffix_selects_emitter [111, 46, 115, 99, 97, 100]).2.2.1 (Or.inl (by decide)),
   (c7_suffix_selects_emitter [111, 46, 99, 115, 103]).2.2.1 (Or.inr (by decide)),
   (c7_suffix_selects_emitter [111, 46, 112, 115]).2.2.2.1 (by decide),
   (c7_suffix_selects_emitter [111, 46, 120, 121, 122]).2.2.2.2
     (by decide) (by decide) (by decide) (by decide) (by decide)⟩

theorem psc_props (e : do_file_ext) (o : do_file_opts) (cnt : Nat) :
    ∀ k zi, cnt - zi ≤ k →
      ((process_stack_csg e o cnt zi).2 = true ↔
        ∀ i, zi ≤ i → i < cnt → layer1_ok e o i = true) ∧
      (∀ ev ∈ (process_stack_csg e o cnt zi).1,
        ∃ i, zi ≤ i ∧ i < cnt ∧ ev = layer_ev.pass1 i) ∧
      ((process_stack_csg e o cnt zi).2 = true →
        ∀ i, zi ≤ i → i < cnt → layer_ev.pass1 i ∈ (process_stack_csg e o cnt zi).1)
  | 0, zi, hk => by
    have hz : ¬ zi < cnt := by omega
    rw [process_stack_csg.eq_1, if_neg hz]
    refine ⟨?_, by simp, ?_⟩
    · simp only [List.not_mem_nil]
      constructor
      · intro _ i h1 h2
        omega
      · intro _
        trivial
    · intro _ i h1 h2
      omega
  | k + 1, zi, hk => by
    by_cases hz : zi < cnt
    · rw [process_stack_csg.eq_1, if_pos hz]
      have ih := psc_props e o cnt k (zi + 1) (by omega)
      by_cases hl : layer1_ok e o zi = true
      · rw [if_pos hl]
        dsimp only
        refine ⟨?_, ?_, ?_⟩
        · rw [ih.1]
          constructor
          · intro hall i h1 h2
            rcases Nat.lt_or_ge i (zi + 1) with h | h
            · have : i = zi := by omega
              rw [this]
              exact hl
            · exact hall i h h2
          · intro hall i h1 h2
            exact hall i (by omega) h2
        · intro ev hev
          rcases List.mem_cons.mp hev with h | h
          · exact ⟨zi, le_refl zi, hz, h⟩
          · obtain ⟨i, h1, h2, h3⟩ := ih.2.1 ev h
            exact ⟨i, by omega, h2, h3⟩
        · intro ht i h1 h2
          rcases Nat.lt_or_ge i (zi + 1) with h | h
          · have : i = zi := by omega
            rw [this]
            exact List.mem_cons_self _ _
          · exact List.mem_cons_of_mem _ (ih.2.2 ht i h h2)
      · rw [if_neg hl]
        refine ⟨?_, ?_, ?_⟩
        · constructor
          · intro hfalse
            exact absurd hfalse (by simp)
          · intro hall
            exact absurd (hall zi (le_refl zi) hz) hl
        · intro ev hev
          simp at hev
          exact ⟨zi, le_refl zi, hz, hev⟩
        · intro ht
          exact absurd ht (by simp)
    · rw [process_stack_csg.eq_1, if_neg hz]
      refine ⟨?_, by simp, ?_⟩
      · simp only [List.not_mem_nil]
        constructor
        · intro _ i h1 h2
          omega
        · intro _
          trivial
      · intro _ i h1 h2
        omega

theorem psd_all_pass2 (e : do_file_ext) (o : do_file_opts) (cnt : Nat) :
    ∀ k zi, cnt - zi ≤ k →
      ∀ ev ∈ (process_stack_diff e o cnt zi).1, ∃ i, ev = layer_ev.pass2 i
  | 0, zi, hk => by
    have hz : ¬ zi < cnt := by omega
    rw [process_stack_diff.eq_1, if_neg hz]
    simp
  | k + 1, zi, hk => by
    by_cases hz : zi < cnt
    · rw [process_stack_diff.eq_1, if_pos hz]
      by_cases hl : (o.no_tri || e.tri_diff_ok zi) = true
      · rw [if_pos hl]
        dsimp only
        intro ev hev
        rcases List.mem_cons.mp hev with h | h
        · exact ⟨zi, h⟩
        · exact psd_all_pass2 e o cnt k (zi + 1) (by omega) ev h
      · rw [if_neg hl]
        intro ev hev
        simp at hev
        exact ⟨zi, hev⟩
    · rw [process_stack_diff.eq_1, if_neg hz]
      simp

theorem psd_head (e : do_file_ext) (o : do_file_opts) (cnt : Nat) (hcnt : 1 ≤ cnt) :
    layer_ev.pass2 0 ∈ (process_stack_diff e o cnt 0).1 := by
  rw [process_stack_diff.eq_1, if_pos (by omega)]
  by_cases hl : (o.no_tri || e.tri_diff_ok 0) = true
  · rw [if_pos hl]
    exact List.mem_cons_self _ _
  · rw [if_neg hl]
    exact List.mem_cons_self _ _

theorem do_file_run_parse_fail {e : do_file_ext} {o : do_file_opts} {cnt : Nat}
    (hp : e.parse_ok = false) : do_file_run e o cnt = ([], false) := by
  unfold do_file_run
  rw [hp]
  rfl

theorem do_file_run_dump_syn {e : do_file_ext} {o : do_file_opts} {cnt : Nat}
    (hp : e.parse_ok = true) (h : o.dump_syn = true) : do_file_run e o cnt = ([], true) := by
  unfold do_file_run
  rw [hp, h]
  rfl

theorem do_file_run_scad_fail {e : do_file_ext} {o : do_file_opts} {cnt : Nat}
    (hp : e.parse_ok = true) (h1 : o.dump_syn = false) (h : e.scad_ok = false) :
    do_file_run e o cnt = ([], false) := by
  unfold do_file_run
  rw [hp, h1, h]
  rfl

theorem do_file_run_dump_scad {e : do_file_ext} {o : do_file_opts} {cnt : Nat}
    (hp : e.parse_ok = true) (h1 : o.dump_syn = false) (h2 : e.scad_ok = true)
    (h : o.dump_scad = true) : do_file_run e o cnt = ([], true) := by
  unfold do_file_run
  rw [hp, h1, h2, h]
  rfl

theorem do_file_run_csg3_fail {e : do_file_ext} {o : do_file_opts} {cnt : Nat}
    (hp : e.parse_ok = true) (h1 : o.dump_syn = false) (h2 : e.scad_ok = true)
    (h3 : o.dump_scad = false) (h : e.csg3_ok = false) :
    do_file_run e o cnt = ([], false) := by
  unfold do_file_run
  rw [hp, h1, h2, h3, h]
  rfl

theorem do_file_run_dump_csg3 {e : do_file_ext} {o : do_file_opts} {cnt : Nat}
    (hp : e.parse_ok = true) (h1 : o.dump_syn = false) (h2 : e.scad_ok = true)
    (h3 : o.dump_scad = false) (h4 : e.csg3_ok = true) (h : o.dump_csg3 = true) :
    do_file_run e o cnt = ([], true) := by
  unfold do_file_run
  rw [hp, h1, h2, h3, h4, h]
  rfl

theorem do_file_run_main {e : do_file_ext} {o : do_file_opts} {cnt : Nat}
    (hp : e.parse_ok = true) (h1 : o.dump_syn = false) (h2 : e.scad_ok = true)
    (h3 : o.dump_scad = false) (h4 : e.csg3_ok = true) (h5 : o.dump_csg3 = false) :
    do_file_run e o cnt =
      (if !(process_stack_csg e o cnt 0).2 then ((process_stack_csg e o cnt 0).1, false)
       else if o.dump_js && !o.no_diff then
         ((process_stack_csg e o cnt 0).1 ++ (process_stack_diff e o cnt 0).1,
          (process_stack_diff e o cnt 0).2)
       else ((process_stack_csg e o cnt 0).1, true)) := by
  unfold do_file_run
  rw [hp, h1, h2, h3, h4, h5]
  rfl

/-- C6: the inter-layer diff pass runs iff the JS emitter is selected and
diffing is enabled, and only after pass 1 succeeded on all layers: the trace
of `do_file` layer iterations contains a pass-2 event exactly when the run
reaches the layer stage (parse, lowering and CSG3 succeed and no earlier
dump returns), `dump_js` is set, `no_diff` is not, and every layer of pass 1
succeeded (first conjunct); the trace is always a block of pass-1 events
followed by a block of pass-2 events — the passes never interleave (second
conjunct); and if any pass-2 event occurs, every layer index below `cnt` was
processed by pass 1 (third conjunct). -/
theorem c6_two_pass (e : do_file_ext) (o : do_file_opts) (cnt : Nat) (hcnt : 1 ≤ cnt) :
    ((∃ i, layer_ev.pass2 i ∈ (do_file_run e o cnt).1) ↔
      (e.parse_ok = true ∧ o.dump_syn = false ∧ e.scad_ok = true ∧ o.dump_scad = false ∧
       e.csg3_ok = true ∧ o.dump_csg3 = false ∧ o.dump_js = true ∧ o.no_diff = false ∧
       ∀ i, i < cnt → layer1_ok e o i = true)) ∧
    (∃ t1 t2, (do_file_run e o cnt).1 = t1 ++ t2 ∧
      (∀ ev ∈ t1, ∃ i, ev = layer_ev.pass1 i) ∧
      (∀ ev ∈ t2, ∃ i, ev = layer_ev.pass2 i)) ∧
    ((∃ i, layer_ev.pass2 i ∈ (do_file_run e o cnt).1) →
      ∀ i, i < cnt → layer_ev.pass1 i ∈ (do_file_run e o cnt).1) := by
  have hpsc := psc_props e o cnt cnt 0 (by omega)
  have hpsd := psd_all_pass2 e o cnt cnt 0 (by omega)
  cases hp : e.parse_ok with
  | false =>
    rw [do_file_run_parse_fail hp]
    exact ⟨by simp [hp], ⟨[], [], rfl, by simp, by simp⟩, by simp⟩
  | true =>
  cases hds : o.dump_syn with
  | true =>
    rw [do_file_run_dump_syn hp hds]
    exact ⟨by simp [hds], ⟨[], [], rfl, by simp, by simp⟩, by simp⟩
  | false =>
  cases hsc : e.scad_ok with
  | false =>
    rw [do_file_run_scad_fail hp hds hsc]
    exact ⟨by simp [hsc], ⟨[], [], rfl, by simp, by simp⟩, by simp⟩
  | true =>
  cases hdsc : o.dump_scad with
  | true =>
    rw [do_file_run_dump_scad hp hds hsc hdsc]
    exact ⟨by simp [hdsc], ⟨[], [], rfl, by simp, by simp⟩, by simp⟩
  | false =>
  cases hc3 : e.csg3_ok with
  | false =>
    rw [do_file_run_csg3_fail hp hds hsc hdsc hc3]
    exact ⟨by simp [hc3], ⟨[], [], rfl, by simp, by simp⟩, by simp⟩
  | true =>
  cases hdc3 : o.dump_csg3 with
  | true =>
    rw [do_file_run_dump_csg3 hp hds hsc hdsc hc3 hdc3]
    exact ⟨by simp [hdc3], ⟨[], [], rfl, by simp, by simp⟩, by simp⟩
  | false =>
  rw [do_file_run_main hp hds hsc hdsc hc3 hdc3]
  cases hr1 : (process_stack_csg e o cnt 0).2 with
  | false =>
    rw [show (!false) = true from rfl, if_pos rfl]
    have hnall : ¬ ∀ i, i < cnt → layer1_ok e o i = true := by
      intro hall
      have := (hpsc.1).mpr (fun i _ h2 => hall i h2)
      rw [hr1] at this
      exact Bool.noConfusion this
    refine ⟨?_, ⟨(process_stack_csg e o cnt 0).1, [], by simp, ?_, by simp⟩, ?_⟩
    · constructor
      · intro ⟨i, hi⟩
        obtain ⟨j, _, _, hj⟩ := hpsc.2.1 _ hi
        exact absurd hj (by simp)
      · intro hrhs
        exact absurd hrhs.2.2.2.2.2.2.2.2 hnall
    · intro ev hev
      obtain ⟨j, _, _, hj⟩ := hpsc.2.1 ev hev
      exact ⟨j, hj⟩
    · intro ⟨i, hi⟩
      obtain ⟨j, _, _, hj⟩ := hpsc.2.1 _ hi
      exact absurd hj (by simp)
  | true =>
    rw [show (!true) = false from rfl, if_neg (by simp)]
    have hall : ∀ i, i < cnt → layer1_ok e o i = true :=
      fun i h2 => (hpsc.1).mp hr1 i (by omega) h2
    cases hjd : (o.dump_js && !o.no_diff) with
    | false =>
      rw [if_neg (by simp [hjd])]
      have hnot : ¬ (o.dump_js = true ∧ o.no_diff = false) := by
        intro ⟨ha, hb⟩
        rw [ha, hb] at hjd
        exact Bool.noConfusion hjd
      refine ⟨?_, ⟨(process_stack_csg e o cnt 0).1, [], by simp, ?_, by simp⟩, ?_⟩
      · constructor
        · intro ⟨i, hi⟩
          obtain ⟨j, _, _, hj⟩ := hpsc.2.1 _ hi
          exact absurd hj (by simp)
        · intro hrhs
          exact absurd ⟨hrhs.2.2.2.2.2.2.1, hrhs.2.2.2.2.2.2.2.1⟩ hnot
      · intro ev hev
        obtain ⟨j, _, _, hj⟩ := hpsc.2.1 ev hev
        exact ⟨j, hj⟩
      · intro ⟨i, hi⟩
        obtain ⟨j, _, _, hj⟩ := hpsc.2.1 _ hi
        exact absurd hj (by simp)
    | true =>
      rw [if_pos (by simp [hjd])]
      have hjs : o.dump_js = true := by
        revert hjd
        cases o.dump_js <;> simp
      have hnd : o.no_diff = false := by
        revert hjd
        cases o.no_diff <;> cases o.dump_js <;> simp
      refine ⟨?_, ?_, ?_⟩
      · constructor
        · intro _
          exact ⟨rfl, rfl, rfl, rfl, rfl, rfl, hjs, hnd, hall⟩
        · intro _
          exact ⟨0, by simp [List.mem_append]; exact Or.inr (psd_head e o cnt hcnt)⟩
      · exact ⟨(process_stack_csg e o cnt 0).1, (process_stack_diff e o cnt 0).1, by simp,
          fun ev hev => (hpsc.2.1 ev hev).elim fun j hj => ⟨j, hj.2.2⟩,
          fun ev hev => hpsd ev hev⟩
      · intro _ i hi
        have := hpsc.2.2 hr1 i (by omega) hi
        simp [List.mem_append]
        exact Or.inl this

theorem c6_two_pass_witness :
    ((∃ i, layer_ev.pass2 i ∈ (do_file_run c6_ext c6_opts 2).1) ↔
      (c6_ext.parse_ok = true ∧ c6_opts.dump_syn = false ∧ c6_ext.scad_ok = true ∧
       c6_opts.dump_scad = false ∧ c6_ext.csg3_ok = true ∧ c6_opts.dump_csg3 = false ∧
       c6_opts.dump_js = true ∧ c6_opts.no_diff = false ∧
       ∀ i, i < 2 → layer1_ok c6_ext c6_opts i = true)) ∧
    (∃ t1 t2, (do_file_run c6_ext c6_opts 2).1 = t1 ++ t2 ∧
      (∀ ev ∈ t1, ∃ i, ev = layer_ev.pass1 i) ∧
      (∀ ev ∈ t2, ∃ i, ev = layer_ev.pass2 i)) ∧
    ((∃ i, layer_ev.pass2 i ∈ (do_file_run c6_ext c6_opts 2).1) →
      ∀ i, i < 2 → layer_ev.pass1 i ∈ (do_file_run c6_ext c6_opts 2).1) :=
  c6_two_pass c6_ext c6_opts 2 (by omega)


theorem nl_offs_mem : ∀ (cs : List Nat) (i x : Nat), x ∈ nl_offs cs i →
    i + 1 ≤ x ∧ x ≤ i + cs.length
  | [], _, x, hx => absurd hx (List.not_mem_nil x)
  | c :: cs, i, x, hx => by
    unfold nl_offs at hx
    split at hx
    · rcases List.mem_cons.mp hx with h | h
      · subst h
        simp
      · have := nl_offs_mem cs (i + 1) x h
        refine ⟨by omega, ?_⟩
        simp only [List.length_cons]
        omega
    · have := nl_offs_mem cs (i + 1) x hx
      refine ⟨by omega, ?_⟩
      simp only [List.length_cons]
      omega

theorem nl_offs_pairwise : ∀ (cs : List Nat) (i : Nat), (nl_offs cs i).Pairwise (· < ·)
  | [], _ => List.Pairwise.nil
  | c :: cs, i => by
    unfold nl_offs
    split
    · refine List.Pairwise.cons ?_ (nl_offs_pairwise cs (i + 1))
      intro y hy
      have := nl_offs_mem cs (i + 1) y hy
      omega
    · exact nl_offs_pairwise cs (i + 1)

theorem getLastD_mem : ∀ (l : List Nat) (a : Nat), l.getLastD a ∈ a :: l
  | [], a => by
    rw [List.getLastD_nil]
    exact List.mem_cons_self a []
  | b :: t, a => by
    rw [List.getLastD_cons]
    have ih := getLastD_mem t b
    rcases List.mem_cons.mp ih with h | h
    · rw [h]
      exact List.mem_cons_of_mem a (List.mem_cons_self b t)
    · exact List.mem_cons_of_mem a (List.mem_cons_of_mem b h)

theorem mem_le_getLastD : ∀ (l : List Nat), l.Pairwise (· < ·) →
    ∀ x ∈ l, x ≤ l.getLastD 0
  | [], _, x, hx => absurd hx (List.not_mem_nil x)
  | a :: t, hp, x, hx => by
    have htail : (a :: t).getLastD 0 = t.getLastD a := List.getLastD_cons 0 a t
    rcases List.mem_cons.mp hx with h | h
    · subst h
      rw [htail]
      have hm := getLastD_mem t x
      rcases List.mem_cons.mp hm with h2 | h2
      · omega
      · have := (List.pairwise_cons.mp hp).1 _ h2
        omega
    · have hp2 := (List.pairwise_cons.mp hp).2
      have ih := mem_le_getLastD t hp2 x h
      rw [htail]
      cases t with
      | nil => exact absurd h (List.not_mem_nil x)
      | cons b v =>
        rw [List.getLastD_cons a b v]
        rw [List.getLastD_cons 0 b v] at ih
        exact ih

theorem getD_last_eq_getLastD : ∀ (l : List Nat), l ≠ [] →
    l.getD (l.length - 1) 0 = l.getLastD 0
  | [], h => absurd rfl h
  | [a], _ => rfl
  | a :: b :: t, _ => by
    have ih := getD_last_eq_getLastD (b :: t) (by simp)
    have h1 : (a :: b :: t).getD ((a :: b :: t).length - 1) 0 =
        (b :: t).getD ((b :: t).length - 1) 0 := by
      simp only [List.length_cons, Nat.add_sub_cancel, List.getD_cons_succ]
    rw [h1, ih, List.getLastD_cons 0 a (b :: t), List.getLastD_cons a b t,
      List.getLastD_cons 0 b t]

theorem line_offs_pairwise (raw : List Nat) : (line_offs raw).Pairwise (· < ·) := by
  have hbase : (0 :: nl_offs raw 0).Pairwise (· < ·) := by
    refine List.Pairwise.cons ?_ (nl_offs_pairwise raw 0)
    intro y hy
    have := nl_offs_mem raw 0 y hy
    omega
  unfold line_offs
  dsimp only
  split
  · exact hbase
  · rename_i hne
    rw [List.pairwise_append]
    refine ⟨hbase, by simp, ?_⟩
    intro x hx y hy
    simp only [List.mem_singleton] at hy
    subst hy
    have hle := mem_le_getLastD _ hbase x hx
    have hlast_mem := getLastD_mem (nl_offs raw 0) 0
    have hlast_le : (0 :: nl_offs raw 0).getLastD 0 ≤ raw.length := by
      rw [List.getLastD_cons 0 0 (nl_offs raw 0)]
      rcases List.mem_cons.mp hlast_mem with h | h
      · omega
      · have := nl_offs_mem raw 0 _ h
        omega
    omega

theorem line_offs_ne_nil (raw : List Nat) : line_offs raw ≠ [] := by
  unfold line_offs
  dsimp only
  split
  · simp
  · simp

theorem line_offs_head (raw : List Nat) : (line_offs raw).getD 0 0 = 0 := by
  unfold line_offs
  dsimp only
  split
  · rfl
  · rfl

theorem line_offs_last (raw : List Nat) :
    (line_offs raw).getD ((line_offs raw).length - 1) 0 = raw.length := by
  rw [getD_last_eq_getLastD _ (line_offs_ne_nil raw)]
  unfold line_offs
  dsimp only
  split
  · rename_i h
    exact h
  · exact List.getLastD_concat 0 raw.length (0 :: nl_offs raw 0)

theorem line_offs_mem_le (raw : List Nat) :
    ∀ x ∈ line_offs raw, x ≤ raw.length := by
  intro x hx
  unfold line_offs at hx
  dsimp only at hx
  have hcase : x = 0 ∨ x ∈ nl_offs raw 0 ∨ x = raw.length := by
    split at hx
    · rcases List.mem_cons.mp hx with h | h
      · exact Or.inl h
      · exact Or.inr (Or.inl h)
    · rcases List.mem_append.mp hx with h | h
      · rcases List.mem_cons.mp h with h2 | h2
        · exact Or.inl h2
        · exact Or.inr (Or.inl h2)
      · simp only [List.mem_singleton] at h
        exact Or.inr (Or.inr h)
  rcases hcase with h | h | h
  · omega
  · have := nl_offs_mem raw 0 x h
    omega
  · omega


theorem getD_mem_of_lt : ∀ (l : List Nat) (k : Nat), k < l.length → l.getD k 0 ∈ l
  | [], k, h => absurd h (by simp)
  | a :: t, 0, _ => List.mem_cons_self a t
  | a :: t, k + 1, h => by
    simp only [List.getD_cons_succ]
    exact List.mem_cons_of_mem a (getD_mem_of_lt t k (by simp at h; omega))

theorem pairwise_getD_lt : ∀ (l : List Nat), l.Pairwise (· < ·) →
    ∀ i j, i < j → j < l.length → l.getD i 0 < l.getD j 0
  | [], _, i, j, _, hj => absurd hj (by simp)
  | a :: t, hp, 0, j + 1, _, hj => by
    simp only [List.getD_cons_zero, List.getD_cons_succ]
    have hm := getD_mem_of_lt t j (by simp at hj; omega)
    exact (List.pairwise_cons.mp hp).1 _ hm
  | a :: t, hp, i + 1, j + 1, hij, hj => by
    simp only [List.getD_cons_succ]
    exact pairwise_getD_lt t (List.pairwise_cons.mp hp).2 i j (by omega) (by simp at hj; omega)

theorem getD_map_lines (base : Int) : ∀ (l : List Nat) (j : Nat), j < l.length →
    (l.map (fun (o : Nat) => base + (o : Int))).getD j 0 = base + ((l.getD j 0 : Nat) : Int)
  | [], j, h => absurd h (by simp)
  | a :: t, 0, _ => rfl
  | a :: t, j + 1, h => by
    simp only [List.map_cons, List.getD_cons_succ]
    exact getD_map_lines base t j (by simp at h; omega)

theorem bsearch_aux_finds (key : Int) (L : List Int)
    (hsort : ∀ i j, i < j → j < L.length → L.getD i 0 < L.getD j 0)
    (hlast : key ≤ L.getD (L.length - 1) 0)
    (jstar : Nat) (hjlt : jstar < L.length)
    (hjle : L.getD jstar 0 ≤ key)
    (hjmax : ∀ t, jstar < t → t < L.length → key < L.getD t 0) :
    ∀ (n lo hi : Nat), hi - lo ≤ n → hi ≤ L.length → lo ≤ jstar → jstar < hi →
      ∃ i, cp_v_bsearch_aux key L lo hi = some (some i) ∧ i < L.length ∧
        L.getD i 0 ≤ key
  | 0, lo, hi, hn, _, hlo, hhi => absurd hn (by omega)
  | n + 1, lo, hi, hn, hhiL, hlo, hhi => by
    have hlh : lo < hi := by omega
    unfold cp_v_bsearch_aux
    rw [dif_pos hlh]
    dsimp only
    have hmlo : lo ≤ (lo + hi) / 2 := by omega
    have hmhi : (lo + hi) / 2 < hi := by omega
    have hmidL : (lo + hi) / 2 < L.length := by omega
    by_cases h1 : key < L.getD ((lo + hi) / 2) 0
    · have hjm : jstar < (lo + hi) / 2 := by
        by_contra hc
        rcases Nat.eq_or_lt_of_le (Nat.le_of_not_lt hc) with he | hl
        · rw [← he] at hjle
          omega
        · have := hsort _ _ hl hjlt
          omega
      have hc : cmp_line key L ((lo + hi) / 2) = some (-1) := by
        unfold cmp_line
        rw [if_pos h1]
      rw [hc]
      have hres := bsearch_aux_finds key L hsort hlast jstar hjlt hjle hjmax
        n lo ((lo + hi) / 2) (by omega) (by omega) hlo hjm
      simpa using hres
    · by_cases h2 : key = L.getD ((lo + hi) / 2) 0
      · have hc : cmp_line key L ((lo + hi) / 2) = some 0 := by
          unfold cmp_line
          rw [if_neg h1, if_pos h2]
        rw [hc]
        refine ⟨(lo + hi) / 2, ?_, hmidL, by omega⟩
        simp
      · have hgt : L.getD ((lo + hi) / 2) 0 < key := by omega
        have hm1 : (lo + hi) / 2 + 1 < L.length := by
          by_contra hc
          have hm : (lo + hi) / 2 = L.length - 1 := by omega
          rw [hm] at hgt
          omega
        by_cases h3 : key > L.getD ((lo + hi) / 2 + 1) 0
        · have hj1 : (lo + hi) / 2 + 1 ≤ jstar := by
            by_contra hc
            have := hjmax ((lo + hi) / 2 + 1) (by omega) hm1
            omega
          have hc : cmp_line key L ((lo + hi) / 2) = some 1 := by
            unfold cmp_line
            rw [if_neg h1, if_neg h2, if_pos hm1, if_pos h3]
          rw [hc]
          have hres := bsearch_aux_finds key L hsort hlast jstar hjlt hjle hjmax
            n ((lo + hi) / 2 + 1) hi (by omega) hhiL hj1 hhi
          simpa using hres
        · have hc : cmp_line key L ((lo + hi) / 2) = some 0 := by
            unfold cmp_line
            rw [if_neg h1, if_neg h2, if_pos hm1, if_neg h3]
          rw [hc]
          refine ⟨(lo + hi) / 2, ?_, hmidL, by omega⟩
          simp


theorem bsearch_finds (key : Int) (L : List Int)
    (hsort : ∀ i j, i < j → j < L.length → L.getD i 0 < L.getD j 0)
    (hlen : 0 < L.length)
    (hfirst : L.getD 0 0 ≤ key)
    (hlast : key ≤ L.getD (L.length - 1) 0) :
    ∃ i, cp_v_bsearch key L = some (some i) ∧ i < L.length ∧ L.getD i 0 ≤ key := by
  have hjle : L.getD (Nat.findGreatest (fun j => L.getD j 0 ≤ key) (L.length - 1)) 0 ≤ key :=
    @Nat.findGreatest_spec 0 (fun j => L.getD j 0 ≤ key) _ (L.length - 1) (Nat.zero_le _) hfirst
  have hjlt : Nat.findGreatest (fun j => L.getD j 0 ≤ key) (L.length - 1) < L.length := by
    have := @Nat.findGreatest_le (fun j => L.getD j 0 ≤ key) _ (L.length - 1)
    omega
  have hjmax : ∀ t, Nat.findGreatest (fun j => L.getD j 0 ≤ key) (L.length - 1) < t →
      t < L.length → key < L.getD t 0 := by
    intro t ht htL
    by_contra hc
    have hP : L.getD t 0 ≤ key := by omega
    have hle : t ≤ L.length - 1 := by omega
    exact Nat.findGreatest_is_greatest ht hle hP
  have h := bsearch_aux_finds key L hsort hlast _ hjlt hjle hjmax
    L.length 0 L.length (by omega) (le_refl _) (Nat.zero_le _) hjlt
  unfold cp_v_bsearch
  exact h

theorem file_bsearch_ok (f : syn_file) (token : Int)
    (h1 : f.base ≤ token) (h2 : token < f.base + ((f.raw.length : Int) + 1)) :
    ∃ j, cp_v_bsearch token f.lines = some (some j) ∧ j < f.lines.length ∧
      f.lines.getD j 0 ≤ token := by
  have hlenoffs : 0 < (line_offs f.raw).length := by
    cases he : line_offs f.raw with
    | nil => exact absurd he (line_offs_ne_nil f.raw)
    | cons a t => simp
  have hlen : 0 < f.lines.length := by
    unfold syn_file.lines
    rw [List.length_map]
    exact hlenoffs
  have hsort : ∀ i j, i < j → j < f.lines.length →
      f.lines.getD i 0 < f.lines.getD j 0 := by
    intro i j hij hj
    unfold syn_file.lines at hj ⊢
    rw [List.length_map] at hj
    rw [getD_map_lines _ _ i (by omega), getD_map_lines _ _ j hj]
    have := pairwise_getD_lt _ (line_offs_pairwise f.raw) i j hij hj
    omega
  have hfirst : f.lines.getD 0 0 ≤ token := by
    unfold syn_file.lines
    rw [getD_map_lines _ _ 0 hlenoffs, line_offs_head]
    simpa using h1
  have hlastv : token ≤ f.lines.getD (f.lines.length - 1) 0 := by
    unfold syn_file.lines
    rw [List.length_map, getD_map_lines _ _ _ (by omega), line_offs_last]
    omega
  exact bsearch_finds token f.lines hsort hlen hfirst hlastv

theorem get_loc_aux_props (token : Int) : ∀ (fs : List syn_file) (idx : Nat),
    cp_syn_get_loc_aux fs idx token ≠ get_loc_res.crash ∧
    ((∃ f ∈ fs, f.base ≤ token ∧ token < f.base + ((f.raw.length : Int) + 1)) ↔
      ∃ l, cp_syn_get_loc_aux fs idx token = get_loc_res.found l) ∧
    ((¬ ∃ f ∈ fs, f.base ≤ token ∧ token < f.base + ((f.raw.length : Int) + 1)) ↔
      cp_syn_get_loc_aux fs idx token = get_loc_res.not_found) ∧
    (∀ l, cp_syn_get_loc_aux fs idx token = get_loc_res.found l →
      ∃ k, k < fs.length ∧ l.file_idx = idx + k ∧
        l.line < (fs.getD k ⟨0, 0, []⟩).lines.length ∧
        (fs.getD k ⟨0, 0, []⟩).lines.getD l.line 0 ≤ token)
  | [], idx => by
    refine ⟨by simp [cp_syn_get_loc_aux], ?_, ?_, ?_⟩
    · constructor
      · rintro ⟨f, hf, _⟩
        exact absurd hf (List.not_mem_nil f)
      · rintro ⟨l, hl⟩
        simp [cp_syn_get_loc_aux] at hl
    · constructor
      · intro _
        simp [cp_syn_get_loc_aux]
      · rintro _ ⟨f, hf, _⟩
        exact absurd hf (List.not_mem_nil f)
    · intro l hl
      simp [cp_syn_get_loc_aux] at hl
  | f :: rest, idx => by
    by_cases hin : f.base ≤ token ∧ token < f.base + ((f.raw.length : Int) + 1)
    · obtain ⟨j, hj, hjlen, hjle⟩ := file_bsearch_ok f token hin.1 hin.2
      have hres : cp_syn_get_loc_aux (f :: rest) idx token = get_loc_res.found
          { file_idx := idx, line := j,
            copy := f.lines.getD j 0,
            copy_end := if j + 1 < f.lines.length then f.lines.getD (j + 1) 0
              else f.lines.getD j 0,
            orig := f.orig_base + (f.lines.getD j 0 - f.base),
            orig_end := f.orig_base + (f.lines.getD j 0 - f.base) +
              ((if j + 1 < f.lines.length then f.lines.getD (j + 1) 0
                else f.lines.getD j 0) - f.lines.getD j 0) } := by
        unfold cp_syn_get_loc_aux
        rw [if_pos hin, hj]
        dsimp only
        rw [if_pos hjlen]
      refine ⟨by rw [hres]; simp, ?_, ?_, ?_⟩
      · constructor
        · intro _
          exact ⟨_, hres⟩
        · intro _
          exact ⟨f, List.mem_cons_self f rest, hin⟩
      · constructor
        · intro hno
          exact absurd ⟨f, List.mem_cons_self f rest, hin⟩ hno
        · intro hnf
          rw [hres] at hnf
          exact absurd hnf (by simp)
      · intro l hl
        rw [hres] at hl
        have he := get_loc_res.found.inj hl
        refine ⟨0, by simp, ?_, ?_, ?_⟩
        · rw [← he]
          dsimp only
          omega
        · rw [← he]
          simpa using hjlen
        · rw [← he]
          simpa using hjle
    · have hres : cp_syn_get_loc_aux (f :: rest) idx token =
          cp_syn_get_loc_aux rest (idx + 1) token := by
        conv_lhs => unfold cp_syn_get_loc_aux
        rw [if_neg hin]
      obtain ⟨ih1, ih2, ih3, ih4⟩ := get_loc_aux_props token rest (idx + 1)
      refine ⟨by rw [hres]; exact ih1, ?_, ?_, ?_⟩
      · rw [hres]
        constructor
        · rintro ⟨g, hg, hgin⟩
          rcases List.mem_cons.mp hg with h | h
          · subst h
            exact absurd hgin hin
          · exact ih2.mp ⟨g, h, hgin⟩
        · rintro ⟨l, hl⟩
          obtain ⟨g, hg, hgin⟩ := ih2.mpr ⟨l, hl⟩
          exact ⟨g, List.mem_cons_of_mem f hg, hgin⟩
      · rw [hres]
        constructor
        · intro hno
          apply ih3.mp
          rintro ⟨g, hg, hgin⟩
          exact hno ⟨g, List.mem_cons_of_mem f hg, hgin⟩
        · rintro hnf ⟨g, hg, hgin⟩
          rcases List.mem_cons.mp hg with h | h
          · subst h
            exact hin hgin
          · exact (ih3.mpr hnf) ⟨g, h, hgin⟩
      · intro l hl
        rw [hres] at hl
        obtain ⟨k, hk, hfi, hline, hle2⟩ := ih4 l hl
        refine ⟨k + 1, by simp only [List.length_cons]; omega, by omega, ?_, ?_⟩
        · simpa only [List.getD_cons_succ] using hline
        · simpa only [List.getD_cons_succ] using hle2

/-- C10: amended totality statement for `cp_syn_get_loc`.  Over any file
registry and any pointer: no internal assertion fires; the call reports a
location iff the pointer lies in some file's buffer range
`[data, data + size + 1)` (including the NUL sentinel byte); it reports
`not_found` iff the pointer lies in no file's range; and every reported
location carries a valid file index and a line index `i` with
`i < line.size` and `line[i] <= pointer`.  (The claim's parenthetical that
the sentinel maps to the *last* line entry is refuted separately.) -/
theorem c10_get_loc_total : ∀ (ts : List (Int × Int × List Nat)) (token : Int),
    cp_syn_get_loc (mk_files ts) token ≠ get_loc_res.crash ∧
    ((∃ f ∈ mk_files ts, f.base ≤ token ∧ token < f.base + ((f.raw.length : Int) + 1)) ↔
      ∃ l, cp_syn_get_loc (mk_files ts) token = get_loc_res.found l) ∧
    ((¬ ∃ f ∈ mk_files ts, f.base ≤ token ∧ token < f.base + ((f.raw.length : Int) + 1)) ↔
      cp_syn_get_loc (mk_files ts) token = get_loc_res.not_found) ∧
    (∀ l, cp_syn_get_loc (mk_files ts) token = get_loc_res.found l →
      l.file_idx < (mk_files ts).length ∧
      l.line < ((mk_files ts).getD l.file_idx ⟨0, 0, []⟩).lines.length ∧
      ((mk_files ts).getD l.file_idx ⟨0, 0, []⟩).lines.getD l.line 0 ≤ token) := by
  intro ts token
  obtain ⟨h1, h2, h3, h4⟩ := get_loc_aux_props token (mk_files ts) 0
  unfold cp_syn_get_loc
  refine ⟨h1, h2, h3, ?_⟩
  intro l hl
  obtain ⟨k, hk, hfi, hline, hle2⟩ := h4 l hl
  have hkk : l.file_idx = k := by omega
  rw [hkk]
  exact ⟨hk, hline, hle2⟩

/-- C10 counterexample to the "sentinel maps to the last line entry"
parenthetical: for the single file `"a\nb\n"` at base 0, the line table is
`[0, 2, 4]` (three entries, last index 2), the sentinel pointer 4 is inside
the range and is found, but the reported line index is 1, not the last
entry index 2. -/
theorem c10_last_line_counterexample :
    cp_syn_get_loc (mk_files [(0, 0, [97, 10, 98, 10])]) 4 =
      get_loc_res.found ⟨0, 1, 2, 4, 2, 4⟩ ∧
    (syn_file.lines ⟨0, 0, [97, 10, 98, 10]⟩).length = 3 ∧
    (1 : Nat) ≠ 3 - 1 := by
  refine ⟨?_, by simp [syn_file.lines, line_offs, nl_offs], by decide⟩
  simp [cp_syn_get_loc, cp_syn_get_loc_aux, mk_files, cp_v_bsearch,
    cp_v_bsearch_aux, cmp_line, syn_file.lines, line_offs, nl_offs]

end Hob3l
